import Mathlib

/-!
Verification of the timeline-construction engine and coverage analytics of
`tools/timeline_builder.py` (photo-ops-suite).

Modelling conventions:
* `datetime` values are integer minutes on the wedding day.  Every time the
  program manipulates is produced by a minute-precision clock parser and is
  only ever shifted by whole minutes, so all datetimes are minute-aligned and
  the second-level arithmetic of the source (`total_seconds() // 60`) is exact
  integer arithmetic on minutes.
* The presentational string fields of a block (`location`, `notes`,
  `audience`) are not read by any analytics or sequencing decision and are
  omitted from the embedding; `name`, `start`, `end` and `kind` are kept.
* Warning strings are represented by an inductive type with one constructor
  per `warnings.append` site of `build_timeline`, carrying the data that the
  corresponding f-string interpolates.
* `pandas` DataFrame display (column formatting, `"90 min (1.5 hr)"` strings)
  is presentation only; the analytics are modelled as the integer minute
  values that those frames are built from.
-/

namespace PhotoOps

/-- Modelled from the spec: `core/timeutils.py` is not in the snapshot.  The
spec (§4.1) states it adds N whole minutes to a date-time.  On minute-aligned
integer times this is addition. -/
def add_minutes (t : Int) (m : Int) : Int := t + m

/-- Modelled from the spec: `core/timeutils.py` is not in the snapshot.  The
spec (§4.1) states it computes whole minutes between two date-times, with a
negative result when `b` is before `a`.  `minutes_between a b` is the signed
minute count from `a` to `b`. -/
def minutes_between (a : Int) (b : Int) : Int := b - a

/-- `core/models.py` `TimelineBlock`, keeping the fields the engine and the
analytics read (`name`, `start`, `end`, `kind`); the presentational string
fields (`location`, `notes`, `audience`) are omitted. -/
structure TimelineBlock where
  name : String
  start : Int
  «end» : Int
  kind : String
deriving DecidableEq

/-- `TimelineBlock.duration_minutes`: `int((end - start).total_seconds() // 60)`,
which on minute-aligned times is `end - start`. -/
def TimelineBlock.duration_minutes (b : TimelineBlock) : Int := b.«end» - b.start

/-- `core/models.py` `FamilyDynamics` (the free-text `notes` field is
presentational and omitted). -/
structure FamilyDynamics where
  divorced_parents : Bool := false
  remarried_parents : Bool := false
  strained_relationships : Bool := false
  finicky_family_members : Bool := false
deriving DecidableEq

/-- `core/models.py` `ReceptionEvents`.  The snapshot's `core/models.py` is a
stale revision: the canonical model also carries `dancefloor_coverage` and
`dancefloor_minutes`, which `build_timeline` reads and the UI constructor
(`tools/timeline_builder_ui.py`) supplies; they are included here. -/
structure ReceptionEvents where
  grand_entrance : Bool := true
  first_dance : Bool := true
  father_daughter_dance : Bool := false
  mother_son_dance : Bool := false
  toasts : Bool := true
  dinner : Bool := true
  dancefloor_coverage : Bool := true
  cake_cutting : Bool := true
  bouquet_toss : Bool := false
  garter_toss : Bool := false
  grand_entrance_time : Option Int := none
  first_dance_time : Option Int := none
  parent_dances_time : Option Int := none
  toasts_time : Option Int := none
  dinner_start_time : Option Int := none
  cake_cutting_time : Option Int := none
  bouquet_toss_time : Option Int := none
  garter_toss_time : Option Int := none
  grand_entrance_minutes : Int := 10
  first_dance_minutes : Int := 8
  parent_dances_minutes : Int := 10
  toasts_minutes : Int := 20
  dinner_minutes : Int := 60
  dancefloor_minutes : Int := 90
  cake_cutting_minutes : Int := 10
  bouquet_toss_minutes : Int := 8
  garter_toss_minutes : Int := 5
deriving DecidableEq

/-- `core/models.py` `EventInputs`, restricted to the fields `build_timeline`
reads.  As with `ReceptionEvents`, the canonical model also carries the
`photographer_arrival_time` / `arrival_setup_minutes` pair that
`build_timeline` reads and the UI supplies.  String-valued fields
(`wedding_date`, the three locations) and `coverage_hours` (used only inside a
notes string) are presentational and omitted. -/
structure EventInputs where
  coverage_start : Int
  coverage_end : Int
  photographer_arrival_time : Option Int := none
  arrival_setup_minutes : Int := 0
  ceremony_start : Int
  ceremony_minutes : Int
  travel_gr_to_ceremony_minutes : Int := 0
  travel_ceremony_to_reception_minutes : Int := 0
  first_look : Bool
  receiving_line : Bool := false
  receiving_line_minutes : Int := 0
  cocktail_hour_minutes : Int
  protect_cocktail_hour : Bool := false
  family_dynamics : FamilyDynamics := {}
  buffer_minutes : Int
  flatlay_details_minutes : Int
  getting_dressed_minutes : Int
  individual_portraits_minutes : Int
  first_look_minutes : Int := 0
  couple_portraits_minutes : Int
  wedding_party_portraits_minutes : Int
  family_portraits_minutes : Int
  tuckaway_minutes : Int := 0
  family_groupings : Option Int := none
  minutes_per_family_grouping : Int := 0
  sunset_time : Option Int := none
  golden_hour_window_minutes : Int := 0
  reception_start : Option Int := none
  reception_events : ReceptionEvents := {}
deriving DecidableEq

/-- `build_timeline` reads `cocktail_hour_follows_ceremony` through
`getattr(inputs, "cocktail_hour_follows_ceremony", True)`.  The `EventInputs`
dataclass has no such attribute and the UI never supplies one, so the lookup
always yields the default `True`. -/
def cocktail_hour_follows_ceremony (_ : EventInputs) : Bool := true

/-- `build_timeline` reads `ceremony_to_cocktail_gap_minutes` through
`int(getattr(inputs, "ceremony_to_cocktail_gap_minutes", 0) or 0)`; as the
attribute does not exist on the dataclass this is always `0`. -/
def ceremony_to_cocktail_gap_minutes (_ : EventInputs) : Int := 0

/-- One constructor per `warnings.append` site of `build_timeline`
(`tools/timeline_builder.py`), carrying the data interpolated into the
corresponding message string. -/
inductive Warning where
  /-- line 474: no time before the ceremony for tuckaway. -/
  | noTuckawayTime : Warning
  /-- line 481: pre-ceremony schedule runs `over` min past ceremony start. -/
  | preCeremonyOverrun (over : Int) : Warning
  /-- line 580: no first look, estimated post-ceremony portraits vs cocktail hour. -/
  | noFirstLookTightTiming (est_post : Int) (cocktail : Int) : Warning
  /-- line 585: protect cocktail hour enabled but no first look. -/
  | protectCocktailConflict : Warning
  /-- line 610: cocktail hour start earlier than the current timeline position. -/
  | cocktailStartEarly (cocktail_start : Int) (t : Int) : Warning
  /-- line 656: arrives late relative to the entered reception start time. -/
  | arrivesAfterReceptionStart (late : Int) : Warning
  /-- line 684 (`schedule_event_if_toggle`): hard event time earlier than cursor. -/
  | eventEarlierThanCursor (name : String) (whenTime : Int) (t : Int) : Warning
  /-- line 734: dinner start earlier than the current timeline position. -/
  | dinnerEarlierThanCursor (whenTime : Int) (t : Int) : Warning
  /-- line 797: timeline runs `over` min past coverage end. -/
  | pastCoverageEnd (over : Int) : Warning
deriving DecidableEq

/-- The engine's mutable state during one run: the growing block list, the
growing warning list and the current cursor time `t`. -/
structure BuildState where
  blocks : List TimelineBlock
  warnings : List Warning
  t : Int
deriving DecidableEq

/-- `_add_block`: append a block starting at `start` lasting `minutes` and
return the block's end (the source also returns the mutated list). -/
def _add_block (blocks : List TimelineBlock) (name : String) (start : Int)
    (minutes : Int) (kind : String) : List TimelineBlock × Int :=
  (blocks ++ [⟨name, start, add_minutes start minutes, kind⟩], add_minutes start minutes)

/-- The blocks `_add_buffer` appends: nothing when `buffer_minutes ≤ 0`, else
one `"Buffer/transition"` block of kind `"buffer"`. -/
def _buffer_tail (t : Int) (buffer_minutes : Int) : List TimelineBlock :=
  if buffer_minutes ≤ 0 then []
  else [⟨"Buffer/transition", t, add_minutes t buffer_minutes, "buffer"⟩]

/-- The cursor `_add_buffer` returns: unchanged when `buffer_minutes ≤ 0`. -/
def _buffer_t (t : Int) (buffer_minutes : Int) : Int :=
  if buffer_minutes ≤ 0 then t else add_minutes t buffer_minutes

/-- `_add_buffer`: skipped entirely for non-positive minutes, otherwise one
buffer block via `_add_block`. -/
def _add_buffer (blocks : List TimelineBlock) (t : Int) (buffer_minutes : Int) :
    List TimelineBlock × Int :=
  (blocks ++ _buffer_tail t buffer_minutes, _buffer_t t buffer_minutes)

/-- The blocks `_add_travel` appends. -/
def _travel_tail (t : Int) (travel_minutes : Int) (from_to : String) : List TimelineBlock :=
  if travel_minutes ≤ 0 then []
  else [⟨"Travel: " ++ from_to, t, add_minutes t travel_minutes, "travel"⟩]

/-- The cursor `_add_travel` returns. -/
def _travel_t (t : Int) (travel_minutes : Int) : Int :=
  if travel_minutes ≤ 0 then t else add_minutes t travel_minutes

/-- `_add_travel`: skipped for non-positive minutes, otherwise one travel
block of kind `"travel"`. -/
def _add_travel (blocks : List TimelineBlock) (t : Int) (travel_minutes : Int)
    (from_to : String) : List TimelineBlock × Int :=
  (blocks ++ _travel_tail t travel_minutes from_to, _travel_t t travel_minutes)

/-- The blocks `_add_gap_to_cocktail_hour` appends. -/
def _gap_tail (t : Int) (gap_minutes : Int) : List TimelineBlock :=
  if gap_minutes ≤ 0 then []
  else [⟨"Gap before cocktail hour", t, add_minutes t gap_minutes, "buffer"⟩]

/-- The cursor `_add_gap_to_cocktail_hour` returns. -/
def _gap_t (t : Int) (gap_minutes : Int) : Int :=
  if gap_minutes ≤ 0 then t else add_minutes t gap_minutes

/-- `_add_gap_to_cocktail_hour`: optional long gap before cocktail hour,
skipped for non-positive minutes. -/
def _add_gap_to_cocktail_hour (blocks : List TimelineBlock) (t : Int) (gap_minutes : Int) :
    List TimelineBlock × Int :=
  (blocks ++ _gap_tail t gap_minutes, _gap_t t gap_minutes)

/-- `_family_minutes`: groupings × per-grouping minutes when a positive
grouping count is supplied (Python truthiness: `None` and `0` both fall
through), else the flat family-portraits duration. -/
def _family_minutes (inputs : EventInputs) : Int :=
  match inputs.family_groupings with
  | some g =>
    if g > 0 then g * inputs.minutes_per_family_grouping
    else inputs.family_portraits_minutes
  | none => inputs.family_portraits_minutes

/-- The `extra_family_buffer` computed (identically) in both the first-look
branch and before the post-ceremony branch: `max(5, buffer_minutes // 2)` when
any of the three triggering family-dynamics flags is set, else 0.  Python `//`
is floor division, hence `Int.fdiv`. -/
def _extra_family_buffer (inputs : EventInputs) : Int :=
  if inputs.family_dynamics.divorced_parents
      || inputs.family_dynamics.strained_relationships
      || inputs.family_dynamics.finicky_family_members then
    max 5 (Int.fdiv inputs.buffer_minutes 2)
  else 0

/-- `_add_coverage_end_marker`: the zero-duration `"Coverage ends"` sentinel
of kind `"coverage"` at `coverage_end`. -/
def _add_coverage_end_marker (blocks : List TimelineBlock) (inputs : EventInputs) :
    List TimelineBlock :=
  blocks ++ [⟨"Coverage ends", inputs.coverage_end, inputs.coverage_end, "coverage"⟩]

/-- `_overlap_minutes`: minutes of overlap between `[a_start, a_end]` and
`[w_start, w_end]`, 0 when they do not overlap. -/
def _overlap_minutes (a_start : Int) (a_end : Int) (w_start : Int) (w_end : Int) : Int :=
  let s := max a_start w_start
  let e := min a_end w_end
  if e ≤ s then 0 else e - s

/-- Python `str.startswith`, modelled over the character list (a string is a
prefix of another iff its characters are). -/
def str_startswith (s : String) (pre : String) : Bool :=
  pre.data.isPrefixOf s.data

/-- `_dancefloor_intervals`: the `(start, end)` pairs of all blocks whose name
starts with `"Dancefloor coverage"`. -/
def _dancefloor_intervals (blocks : List TimelineBlock) : List (Int × Int) :=
  (blocks.filter (fun b => str_startswith b.name "Dancefloor coverage")).map
    (fun b => (b.start, b.«end»))

/-- `_embedded_in_dancefloor_minutes`: total overlap of block `b` with each
dancefloor interval clipped to the coverage window. -/
def _embedded_in_dancefloor_minutes (b : TimelineBlock) (ivs : List (Int × Int))
    (coverage_start : Int) (coverage_end : Int) : Int :=
  ivs.foldl
    (fun total p =>
      total + _overlap_minutes b.start b.«end» (max p.1 coverage_start) (min p.2 coverage_end))
    0

/-- The shared row computation of `coverage_allocation_by_kind` and
`coverage_allocation_top_blocks`: skip `coverage`/`window` kinds, compute the
overlap with the coverage window, subtract the dancefloor-embedded portion
for embedded cake/toss events, drop rows of non-positive minutes. -/
def _allocation_row (dancefloor : List (Int × Int)) (coverage_start : Int)
    (coverage_end : Int) (b : TimelineBlock) : Option (String × Int) :=
  if b.kind = "coverage" ∨ b.kind = "window" then none
  else
    let mins := _overlap_minutes b.start b.«end» coverage_start coverage_end
    if mins ≤ 0 then none
    else
      let mins :=
        if (b.kind = "event" ∧
              (b.name = "Cake cutting" ∨ b.name = "Bouquet toss" ∨ b.name = "Garter toss")) ∧
            dancefloor ≠ [] then
          max 0 (mins - _embedded_in_dancefloor_minutes b dancefloor coverage_start coverage_end)
        else mins
      if mins ≤ 0 then none else some (b.kind, mins)

/-- The `(Kind, Minutes)` rows `coverage_allocation_by_kind` builds before
grouping. -/
def coverage_allocation_rows (blocks : List TimelineBlock) (coverage_start : Int)
    (coverage_end : Int) : List (String × Int) :=
  blocks.filterMap (_allocation_row (_dancefloor_intervals blocks) coverage_start coverage_end)

/-- `coverage_allocation_by_kind`, as the grouped `Minutes` value for one
kind: the sum of the row minutes of the rows with that kind (the DataFrame's
`groupby("Kind").sum()`).  Display ordering and the `"90 min (1.5 hr)"`
formatting are presentation and omitted. -/
def coverage_allocation_by_kind (blocks : List TimelineBlock) (coverage_start : Int)
    (coverage_end : Int) (kind : String) : Int :=
  ((coverage_allocation_rows blocks coverage_start coverage_end).filter
      (fun r => r.1 = kind)).foldl (fun acc r => acc + r.2) 0

/-- One row of `coverage_allocation_top_blocks` (the display-string columns
are presentation; the sort keys `StartDT`/`MinutesSort` are kept). -/
structure TopBlockRow where
  start : Int
  «end» : Int
  name : String
  kind : String
  minutes : Int
deriving DecidableEq

/-- Row computation of `coverage_allocation_top_blocks`; identical filtering
and embedded-event correction as `_allocation_row`. -/
def _top_block_row (dancefloor : List (Int × Int)) (coverage_start : Int)
    (coverage_end : Int) (b : TimelineBlock) : Option TopBlockRow :=
  if b.kind = "coverage" ∨ b.kind = "window" then none
  else
    let mins := _overlap_minutes b.start b.«end» coverage_start coverage_end
    if mins ≤ 0 then none
    else
      let mins :=
        if (b.kind = "event" ∧
              (b.name = "Cake cutting" ∨ b.name = "Bouquet toss" ∨ b.name = "Garter toss")) ∧
            dancefloor ≠ [] then
          max 0 (mins - _embedded_in_dancefloor_minutes b dancefloor coverage_start coverage_end)
        else mins
      if mins ≤ 0 then none else some ⟨b.start, b.«end», b.name, b.kind, mins⟩

/-- Insertion step of the stable insertion sort used to model the two
`sort_values` calls of `coverage_allocation_top_blocks`. -/
def insertSorted {α : Type} (le : α → α → Bool) (x : α) : List α → List α
  | [] => [x]
  | y :: ys => if le x y then x :: y :: ys else y :: insertSorted le x ys

/-- Stable insertion sort (ties keep their input order, like a stable
`sort_values`; pandas' default quicksort leaves tie order unspecified, and no
claim depends on tie order). -/
def sortedBy {α : Type} (le : α → α → Bool) (l : List α) : List α :=
  l.foldr (insertSorted le) []

/-- `coverage_allocation_top_blocks`: build the per-block rows, rank by
minutes-in-coverage descending, keep the first `top_n`, re-sort
chronologically for display. -/
def coverage_allocation_top_blocks (blocks : List TimelineBlock) (coverage_start : Int)
    (coverage_end : Int) (top_n : Nat) : List TopBlockRow :=
  let rows := blocks.filterMap (_top_block_row (_dancefloor_intervals blocks)
    coverage_start coverage_end)
  let ranked := (sortedBy (fun a b => a.minutes ≥ b.minutes) rows).take top_n
  sortedBy (fun a b => a.start ≤ b.start) ranked

/-- The three integers `coverage_totals` returns. -/
structure CoverageTotals where
  in_coverage_minutes : Int
  scheduled_minutes_total : Int
  overage_minutes : Int
deriving DecidableEq

/-- `coverage_totals`: one pass over the blocks, skipping kinds `coverage`
and `window`, accumulating the overlap sum, the clamped duration sum and the
latest block end (seeded with `coverage_start`); the overage is the positive
part of `latest_end - coverage_end`. -/
def coverage_totals (blocks : List TimelineBlock) (coverage_start : Int)
    (coverage_end : Int) : CoverageTotals :=
  let r := blocks.foldl
    (fun (acc : Int × Int × Int) b =>
      if b.kind = "coverage" ∨ b.kind = "window" then acc
      else
        (acc.1 + _overlap_minutes b.start b.«end» coverage_start coverage_end,
         acc.2.1 + max 0 b.duration_minutes,
         max acc.2.2 b.«end»))
    (0, 0, coverage_start)
  let overage := if r.2.2 > coverage_end then max 0 (minutes_between coverage_end r.2.2) else 0
  ⟨r.1, r.2.1, overage⟩

/-! ## The timeline construction engine

`build_timeline` (`tools/timeline_builder.py`, lines 281-803) is embedded as
a composition of phase functions over `BuildState`, one per commented section
of the source; within each phase the source's statements appear in order. -/

/-- PHOTOGRAPHER ARRIVAL section: optional zero-duration arrival marker, an
`"Arrival/Gear setup"` block when `arrival_setup_minutes > 0`, and the cursor
advances only if the arrival end exceeds it. -/
def arrival_step (inputs : EventInputs) (st : BuildState) : BuildState :=
  match inputs.photographer_arrival_time with
  | none => st
  | some a =>
    let (blocks, _) := _add_block st.blocks "Photographer arrival" a 0 "event"
    let (blocks, arrival_end) :=
      if inputs.arrival_setup_minutes > 0 then
        _add_block blocks "Arrival/Gear setup" a inputs.arrival_setup_minutes "photo"
      else (blocks, a)
    ⟨blocks, st.warnings, if arrival_end > st.t then arrival_end else st.t⟩

/-- Pre-ceremony prep: flat lay → buffer → getting dressed → buffer →
individual portraits → buffer → travel to ceremony → buffer. -/
def prep_steps (inputs : EventInputs) (st : BuildState) : BuildState :=
  let (blocks, t) := _add_block st.blocks "Flat lay & details" st.t
    inputs.flatlay_details_minutes "photo"
  let (blocks, t) := _add_buffer blocks t inputs.buffer_minutes
  let (blocks, t) := _add_block blocks "Getting dressed" t inputs.getting_dressed_minutes "photo"
  let (blocks, t) := _add_buffer blocks t inputs.buffer_minutes
  let (blocks, t) := _add_block blocks "Individual portraits" t
    inputs.individual_portraits_minutes "photo"
  let (blocks, t) := _add_buffer blocks t inputs.buffer_minutes
  let (blocks, t) := _add_travel blocks t inputs.travel_gr_to_ceremony_minutes
    "Getting ready → Ceremony"
  let (blocks, t) := _add_buffer blocks t inputs.buffer_minutes
  ⟨blocks, st.warnings, t⟩

/-- First-look branch: first look, then couple → wedding party → family
portraits (each with its buffer; the family buffer extended by
`_extra_family_buffer`), all pre-ceremony. -/
def first_look_steps (inputs : EventInputs) (st : BuildState) : BuildState :=
  if inputs.first_look then
    let (blocks, t) := _add_block st.blocks "First look" st.t inputs.first_look_minutes "photo"
    let (blocks, t) := _add_buffer blocks t inputs.buffer_minutes
    let (blocks, t) := _add_block blocks "Couple portraits" t
      inputs.couple_portraits_minutes "photo"
    let (blocks, t) := _add_buffer blocks t inputs.buffer_minutes
    let (blocks, t) := _add_block blocks "Wedding party portraits" t
      inputs.wedding_party_portraits_minutes "photo"
    let (blocks, t) := _add_buffer blocks t inputs.buffer_minutes
    let (blocks, t) := _add_block blocks "Family portraits" t (_family_minutes inputs) "photo"
    let (blocks, t) := _add_buffer blocks t
      (inputs.buffer_minutes + _extra_family_buffer inputs)
    ⟨blocks, st.warnings, t⟩
  else st

/-- Pre-ceremony tuckaway: when the cursor is before the ceremony, a tuckaway
block capped by the slack, then a `"Flexible pre-ceremony coverage"` filler
when at least 8 minutes of slack remain; otherwise a warning when tuckaway
minutes were requested. -/
def tuckaway_steps (inputs : EventInputs) (st : BuildState) : BuildState :=
  if st.t < inputs.ceremony_start then
    let slack := minutes_between st.t inputs.ceremony_start
    let tuck_mins := min inputs.tuckaway_minutes slack
    let (blocks, t, slack) :=
      if tuck_mins > 0 then
        let (blocks, t) := _add_block st.blocks "Tuckaway before ceremony" st.t tuck_mins "photo"
        (blocks, t, minutes_between t inputs.ceremony_start)
      else (st.blocks, st.t, slack)
    let (blocks, t) :=
      if slack ≥ 8 then
        _add_block blocks "Flexible pre-ceremony coverage" t slack "buffer"
      else (blocks, t)
    ⟨blocks, st.warnings, t⟩
  else
    ⟨st.blocks,
     st.warnings ++ (if inputs.tuckaway_minutes > 0 then [Warning.noTuckawayTime] else []),
     st.t⟩

/-- Warning when the pre-ceremony schedule overruns the ceremony start. -/
def pre_ceremony_overrun_check (inputs : EventInputs) (st : BuildState) : BuildState :=
  if st.t > inputs.ceremony_start then
    ⟨st.blocks,
     st.warnings ++ [Warning.preCeremonyOverrun (minutes_between inputs.ceremony_start st.t)],
     st.t⟩
  else st

/-- The whole PRE-CEREMONY section, from `t = inputs.coverage_start`. -/
def pre_ceremony_phase (inputs : EventInputs) : BuildState :=
  pre_ceremony_overrun_check inputs
    (tuckaway_steps inputs
      (first_look_steps inputs
        (prep_steps inputs
          (arrival_step inputs ⟨[], [], inputs.coverage_start⟩))))

/-- CEREMONY section: cursor reset to `ceremony_start`, the ceremony block,
the optional receiving line with its buffer, and the reset buffer. -/
def ceremony_phase (inputs : EventInputs) (st : BuildState) : BuildState :=
  let t := inputs.ceremony_start
  let (blocks, t) := _add_block st.blocks "Ceremony" t inputs.ceremony_minutes "event"
  let (blocks, t) :=
    if inputs.receiving_line then
      let (blocks, t) := _add_block blocks "Receiving line" t
        inputs.receiving_line_minutes "event"
      _add_buffer blocks t inputs.buffer_minutes
    else (blocks, t)
  let (blocks, t) := _add_buffer blocks t inputs.buffer_minutes
  ⟨blocks, st.warnings, t⟩

/-- POST-CEREMONY section: with no first look, family → wedding party →
couple portraits with buffers, plus the two feasibility warnings; with a
first look, nothing. -/
def post_ceremony_phase (inputs : EventInputs) (st : BuildState) : BuildState :=
  if !inputs.first_look then
    let fam_minutes := _family_minutes inputs
    let (blocks, t) := _add_block st.blocks "Family portraits" st.t fam_minutes "photo"
    let (blocks, t) := _add_buffer blocks t
      (inputs.buffer_minutes + _extra_family_buffer inputs)
    let (blocks, t) := _add_block blocks "Wedding party portraits" t
      inputs.wedding_party_portraits_minutes "photo"
    let (blocks, t) := _add_buffer blocks t inputs.buffer_minutes
    let (blocks, t) := _add_block blocks "Couple portraits" t
      inputs.couple_portraits_minutes "photo"
    let (blocks, t) := _add_buffer blocks t inputs.buffer_minutes
    let est_post := fam_minutes + inputs.wedding_party_portraits_minutes
      + inputs.couple_portraits_minutes
      + (if inputs.receiving_line then inputs.receiving_line_minutes else 0)
    let warnings := st.warnings
      ++ (if est_post > inputs.cocktail_hour_minutes then
            [Warning.noFirstLookTightTiming est_post inputs.cocktail_hour_minutes]
          else [])
    let warnings := warnings
      ++ (if inputs.protect_cocktail_hour then [Warning.protectCocktailConflict] else [])
    ⟨blocks, warnings, t⟩
  else st

/-- TRAVEL TO RECEPTION section. -/
def travel_to_reception_phase (inputs : EventInputs) (st : BuildState) : BuildState :=
  let (blocks, t) := _add_travel st.blocks st.t
    inputs.travel_ceremony_to_reception_minutes "Ceremony → Reception"
  ⟨blocks, st.warnings, t⟩

/-- Cocktail hour `kind`: genuine photo coverage after a first look, a
non-counted `"window"` otherwise. -/
def cocktail_kind (inputs : EventInputs) : String :=
  if inputs.first_look then "photo" else "window"

/-- The cocktail-hour start the engine computes: anchored to end at
`reception_start` when that is given, else the current cursor (the
gap-before-cocktail branch is dead code, see
`cocktail_hour_follows_ceremony`). -/
def cocktail_start_of (inputs : EventInputs) (t : Int) : Int :=
  match inputs.reception_start with
  | some rs => add_minutes rs (-inputs.cocktail_hour_minutes)
  | none => t

/-- COCKTAIL HOUR section: always exactly one cocktail block; anchored before
`reception_start` when given (with a warning if that lands before the
cursor), else at the cursor after the (dead) optional gap; then the cursor is
advanced to the cocktail end plus a buffer. -/
def cocktail_phase (inputs : EventInputs) (st : BuildState) : BuildState :=
  match inputs.reception_start with
  | some rs =>
    let cocktail_start := add_minutes rs (-inputs.cocktail_hour_minutes)
    let warnings := st.warnings
      ++ (if cocktail_start < st.t then [Warning.cocktailStartEarly cocktail_start st.t] else [])
    let (blocks, _) := _add_block st.blocks "Cocktail hour" cocktail_start
      inputs.cocktail_hour_minutes (cocktail_kind inputs)
    let t := add_minutes cocktail_start inputs.cocktail_hour_minutes
    let (blocks, t) := _add_buffer blocks t inputs.buffer_minutes
    ⟨blocks, warnings, t⟩
  | none =>
    let cocktail_start := st.t
    let (blocks, cocktail_start) :=
      if !(cocktail_hour_follows_ceremony inputs) then
        _add_gap_to_cocktail_hour st.blocks cocktail_start (ceremony_to_cocktail_gap_minutes inputs)
      else (st.blocks, cocktail_start)
    let (blocks, _) := _add_block blocks "Cocktail hour" cocktail_start
      inputs.cocktail_hour_minutes (cocktail_kind inputs)
    let t := add_minutes cocktail_start inputs.cocktail_hour_minutes
    let (blocks, t) := _add_buffer blocks t inputs.buffer_minutes
    ⟨blocks, st.warnings, t⟩

/-- Reception start anchor section: zero-duration marker, lateness warning,
and a `"Reception details"` filler snapping the cursor to the anchor when at
least 10 minutes of slack remain. -/
def reception_anchor_phase (inputs : EventInputs) (st : BuildState) : BuildState :=
  match inputs.reception_start with
  | some rs =>
    let (blocks, _) := _add_block st.blocks "Reception start" rs 0 "event"
    let warnings := st.warnings
      ++ (if st.t > rs then [Warning.arrivesAfterReceptionStart (minutes_between rs st.t)] else [])
    if st.t < rs then
      let slack := minutes_between st.t rs
      if slack ≥ 10 then
        let (blocks, _) := _add_block blocks "Reception details (before guests enter)" st.t
          slack "photo"
        ⟨blocks, warnings, rs⟩
      else ⟨blocks, warnings, st.t⟩
    else ⟨blocks, warnings, st.t⟩
  | none => st

/-- `schedule_event_if_toggle` (closure in `build_timeline`): skip when
disabled; jump the cursor to the hard time when given (warning when that is a
backward jump — the anchor wins); emit the event block and a buffer. -/
def schedule_event_if_toggle (inputs : EventInputs) (st : BuildState) (name : String)
    (enabled : Bool) (whenTime : Option Int) (minutes : Int) : BuildState :=
  if !enabled then st
  else
    let warnings := st.warnings
      ++ (match whenTime with
          | some w => if w < st.t then [Warning.eventEarlierThanCursor name w st.t] else []
          | none => [])
    let t := match whenTime with | some w => w | none => st.t
    let (blocks, t) := _add_block st.blocks name t minutes "event"
    let (blocks, t) := _add_buffer blocks t inputs.buffer_minutes
    ⟨blocks, warnings, t⟩

/-- The four hard-time reception events: grand entrance, first dance, parent
dances (either parent-dance toggle), toasts. -/
def hard_events_phase (inputs : EventInputs) (st : BuildState) : BuildState :=
  let re := inputs.reception_events
  let st := schedule_event_if_toggle inputs st "Grand entrance" re.grand_entrance
    re.grand_entrance_time re.grand_entrance_minutes
  let st := schedule_event_if_toggle inputs st "First dance" re.first_dance
    re.first_dance_time re.first_dance_minutes
  let st := schedule_event_if_toggle inputs st "Parent dances"
    (re.father_daughter_dance || re.mother_son_dance) re.parent_dances_time
    re.parent_dances_minutes
  schedule_event_if_toggle inputs st "Toasts" re.toasts re.toasts_time re.toasts_minutes

/-- Dinner: hard-anchored when a dinner start time is supplied (warning on a
backward jump), else cursor-relative; plus a buffer. -/
def dinner_phase (inputs : EventInputs) (st : BuildState) : BuildState :=
  let re := inputs.reception_events
  match re.dinner, re.dinner_start_time with
  | true, some d =>
    let warnings := st.warnings
      ++ (if d < st.t then [Warning.dinnerEarlierThanCursor d st.t] else [])
    let (blocks, t) := _add_block st.blocks "Dinner" d re.dinner_minutes "event"
    let (blocks, t) := _add_buffer blocks t inputs.buffer_minutes
    ⟨blocks, warnings, t⟩
  | true, none =>
    let (blocks, t) := _add_block st.blocks "Dinner" st.t re.dinner_minutes "event"
    let (blocks, t) := _add_buffer blocks t inputs.buffer_minutes
    ⟨blocks, st.warnings, t⟩
  | false, _ => st

/-- `place_embedded_event` (closure in `build_timeline`): place an enabled
event inside the dancefloor window at its hard time, else at the default
offset from the dancefloor start, the start clamped first up to
`dancefloor_start` and then down to `dancefloor_end - minutes`. -/
def place_embedded_event (blocks : List TimelineBlock) (dancefloor_start : Int)
    (dancefloor_end : Int) (name : String) (enabled : Bool) (whenTime : Option Int)
    (minutes : Int) (default_offset_min : Int) : List TimelineBlock :=
  if !enabled then blocks
  else
    let start_time :=
      match whenTime with
      | some w => w
      | none => add_minutes dancefloor_start default_offset_min
    let start_time := if start_time < dancefloor_start then dancefloor_start else start_time
    let start_time :=
      if start_time > add_minutes dancefloor_end (-minutes) then
        add_minutes dancefloor_end (-minutes)
      else start_time
    (_add_block blocks name start_time minutes "event").1

/-- Dancefloor section: one continuous dancefloor block with the cake/toss
events embedded inside it and the cursor advanced to the dancefloor end; with
dancefloor coverage disabled, those three events are scheduled sequentially
instead. -/
def dancefloor_phase (inputs : EventInputs) (st : BuildState) : BuildState :=
  let re := inputs.reception_events
  if re.dancefloor_coverage then
    let dancefloor_start := st.t
    let dancefloor_end := add_minutes dancefloor_start re.dancefloor_minutes
    let blocks := (_add_block st.blocks "Dancefloor coverage" dancefloor_start
      re.dancefloor_minutes "photo").1
    let blocks := place_embedded_event blocks dancefloor_start dancefloor_end "Cake cutting"
      re.cake_cutting re.cake_cutting_time re.cake_cutting_minutes 15
    let blocks := place_embedded_event blocks dancefloor_start dancefloor_end "Bouquet toss"
      re.bouquet_toss re.bouquet_toss_time re.bouquet_toss_minutes 45
    let blocks := place_embedded_event blocks dancefloor_start dancefloor_end "Garter toss"
      re.garter_toss re.garter_toss_time re.garter_toss_minutes 55
    ⟨blocks, st.warnings, dancefloor_end⟩
  else
    let st := schedule_event_if_toggle inputs st "Cake cutting" re.cake_cutting
      re.cake_cutting_time re.cake_cutting_minutes
    let st := schedule_event_if_toggle inputs st "Bouquet toss" re.bouquet_toss
      re.bouquet_toss_time re.bouquet_toss_minutes
    schedule_event_if_toggle inputs st "Garter toss" re.garter_toss
      re.garter_toss_time re.garter_toss_minutes

/-- Sunset marker section: an informational golden-hour block 30 minutes
before sunset; the cursor is not moved. -/
def golden_hour_phase (inputs : EventInputs) (st : BuildState) : BuildState :=
  match inputs.sunset_time with
  | some sunset =>
    let golden_start := add_minutes sunset (-30)
    ⟨(_add_block st.blocks "Golden hour portraits" golden_start
        inputs.golden_hour_window_minutes "photo").1,
     st.warnings, st.t⟩
  | none => st

/-- `max((b.end for b in blocks), default=d)`: the latest block end, or the
default for an empty list. -/
def latest_block_end (blocks : List TimelineBlock) (d : Int) : Int :=
  match blocks with
  | [] => d
  | b :: bs => bs.foldl (fun m x => max m x.«end») b.«end»

/-- Final coverage check plus the unconditional sentinel: warn when the
latest block end exceeds `coverage_end`, then append the `"Coverage ends"`
marker. -/
def finalize_phase (inputs : EventInputs) (st : BuildState) :
    List TimelineBlock × List Warning :=
  let latest_end := latest_block_end st.blocks inputs.coverage_start
  let warnings := st.warnings
    ++ (if latest_end > inputs.coverage_end then
          [Warning.pastCoverageEnd (minutes_between inputs.coverage_end latest_end)]
        else [])
  (_add_coverage_end_marker st.blocks inputs, warnings)

/-- The state entering the COCKTAIL HOUR section of `build_timeline`. -/
def entering_cocktail_state (inputs : EventInputs) : BuildState :=
  travel_to_reception_phase inputs
    (post_ceremony_phase inputs
      (ceremony_phase inputs
        (pre_ceremony_phase inputs)))

/-- `build_timeline`: the full engine, `EventInputs → (blocks, warnings)`. -/
def build_timeline (inputs : EventInputs) : List TimelineBlock × List Warning :=
  finalize_phase inputs
    (golden_hour_phase inputs
      (dancefloor_phase inputs
        (dinner_phase inputs
          (hard_events_phase inputs
            (reception_anchor_phase inputs
              (cocktail_phase inputs
                (entering_cocktail_state inputs)))))))

/-! ## Specification-side analytics definitions (for claim C3)

These re-state, in the claim's own words, what `coverage_totals` is supposed
to return; the refinement theorem compares them with the implementation
above. -/

/-- The blocks the implementation's analytics actually include: neither the
sentinel `coverage` kind nor the `window` kind. -/
def analytics_included (b : TimelineBlock) : Bool :=
  decide (¬(b.kind = "coverage" ∨ b.kind = "window"))

/-- Spec-side total: sum of the per-block overlaps with the coverage window
over the included blocks. -/
def in_coverage_minutes_spec (blocks : List TimelineBlock) (coverage_start : Int)
    (coverage_end : Int) : Int :=
  ((blocks.filter analytics_included).map
    (fun b => _overlap_minutes b.start b.«end» coverage_start coverage_end)).sum

/-- Spec-side total: sum of the clamped block durations over the included
blocks, regardless of overlap. -/
def scheduled_minutes_spec (blocks : List TimelineBlock) : Int :=
  ((blocks.filter analytics_included).map (fun b => max 0 b.duration_minutes)).sum

/-- Spec-side latest block end over the included blocks, seeded with
`coverage_start`. -/
def latest_end_spec (blocks : List TimelineBlock) (coverage_start : Int) : Int :=
  (blocks.filter analytics_included).foldl (fun m b => max m b.«end») coverage_start

/-- The claim's reading of "non-sentinel": only the `coverage` kind excluded.
Used by the counterexample to C3. -/
def nonsentinel (b : TimelineBlock) : Bool := decide (¬b.kind = "coverage")

/-- C3's claimed in-coverage total: overlap summed over all non-sentinel
blocks (`window` kind included). -/
def in_coverage_minutes_claimed (blocks : List TimelineBlock) (coverage_start : Int)
    (coverage_end : Int) : Int :=
  ((blocks.filter nonsentinel).map
    (fun b => _overlap_minutes b.start b.«end» coverage_start coverage_end)).sum

/-- The two-block list of claim C2: a 90-minute dancefloor-coverage block and
a cake-cutting event embedded at offset 15 lasting 10 minutes. -/
def c2_blocks (T : Int) : List TimelineBlock :=
  [⟨"Dancefloor coverage", T, T + 90, "photo"⟩,
   ⟨"Cake cutting", T + 15, T + 25, "event"⟩]

/-! ## Analytics lemmas -/

/-- Overlap of an interval lying inside the window is its length. -/
theorem _overlap_minutes_of_inside {a b w1 w2 : Int} (h1 : w1 ≤ a) (h2 : b ≤ w2)
    (h3 : a ≤ b) : _overlap_minutes a b w1 w2 = b - a := by
  unfold _overlap_minutes
  rw [max_eq_left h1, min_eq_left h2]
  dsimp only
  split_ifs <;> omega

/-- The accumulator characterization of the `coverage_totals` fold. -/
theorem coverage_totals_foldl (blocks : List TimelineBlock) (cs ce : Int)
    (a s m : Int) :
    blocks.foldl
      (fun (acc : Int × Int × Int) b =>
        if b.kind = "coverage" ∨ b.kind = "window" then acc
        else
          (acc.1 + _overlap_minutes b.start b.«end» cs ce,
           acc.2.1 + max 0 b.duration_minutes,
           max acc.2.2 b.«end»))
      (a, s, m) =
    (a + in_coverage_minutes_spec blocks cs ce,
     s + scheduled_minutes_spec blocks,
     latest_end_spec blocks m) := by
  induction blocks generalizing a s m with
  | nil =>
    simp [in_coverage_minutes_spec, scheduled_minutes_spec, latest_end_spec]
  | cons b bs ih =>
    by_cases h : b.kind = "coverage" ∨ b.kind = "window"
    · simp only [List.foldl_cons, if_pos h, ih, in_coverage_minutes_spec,
        scheduled_minutes_spec, latest_end_spec, List.filter_cons, analytics_included]
      simp [h]
    · simp only [List.foldl_cons, if_neg h, ih, in_coverage_minutes_spec,
        scheduled_minutes_spec, latest_end_spec, List.filter_cons, analytics_included]
      simp only [h, not_false_eq_true, decide_eq_true_eq, or_self, decide_not]
      simp only [decide_eq_false_iff_not, h, not_false_eq_true, if_true, ite_true,
        List.map_cons, List.sum_cons, Prod.mk.injEq]
      refine ⟨by ring, by ring, rfl⟩

/-- C3 (counterexample): the claim reads "the sum over all non-sentinel
blocks of the overlap", but `coverage_totals` also skips blocks of kind
`"window"` (the engine's no-first-look cocktail hour).  On a single window
block fully inside coverage the claimed total is 60, the code's is 0. -/
theorem coverage_totals_claim_counterexample :
    (coverage_totals [⟨"Cocktail hour", 0, 60, "window"⟩] 0 480).in_coverage_minutes ≠
      in_coverage_minutes_claimed [⟨"Cocktail hour", 0, 60, "window"⟩] 0 480 := by
  decide

/-- C3 (amended): for every block list and coverage window,
`coverage_totals` returns exactly: the overlap sum over blocks whose kind is
neither `"coverage"` nor `"window"`; the sum of `max 0 duration` over those
same blocks; and `max 0 (latest_end - coverage_end)` where `latest_end` is
the maximum end over those blocks seeded with `coverage_start`. -/
theorem coverage_totals_refines_spec (blocks : List TimelineBlock)
    (coverage_start coverage_end : Int) :
    coverage_totals blocks coverage_start coverage_end =
      ⟨in_coverage_minutes_spec blocks coverage_start coverage_end,
       scheduled_minutes_spec blocks,
       max 0 (latest_end_spec blocks coverage_start - coverage_end)⟩ := by
  unfold coverage_totals
  rw [coverage_totals_foldl]
  simp only [minutes_between, CoverageTotals.mk.injEq]
  refine ⟨by ring, by ring, ?_⟩
  split_ifs <;> omega

/-- The dancefloor intervals of the C2 block list. -/
theorem c2_dancefloor (T : Int) : _dancefloor_intervals (c2_blocks T) = [(T, T + 90)] := by
  have e1 : str_startswith "Dancefloor coverage" "Dancefloor coverage" = true := by decide
  have e2 : str_startswith "Cake cutting" "Dancefloor coverage" = false := by decide
  unfold _dancefloor_intervals c2_blocks
  simp only [List.filter_cons, List.filter_nil]
  rw [e1, e2]
  simp

/-- The allocation rows of the C2 block list: the cake-cutting row is fully
absorbed by the dancefloor window and dropped. -/
theorem c2_rows (T cs ce : Int) (h1 : cs ≤ T) (h2 : T + 90 ≤ ce) :
    coverage_allocation_rows (c2_blocks T) cs ce = [("photo", 90)] := by
  have o1 : _overlap_minutes T (T + 90) cs ce = 90 := by
    rw [_overlap_minutes_of_inside h1 h2 (by omega)]; ring
  have o2 : _overlap_minutes (T + 15) (T + 25) cs ce = 10 := by
    rw [_overlap_minutes_of_inside (by omega) (by omega) (by omega)]; ring
  have o3 : _overlap_minutes (T + 15) (T + 25) (max T cs) (min (T + 90) ce) = 10 := by
    rw [max_eq_left h1, min_eq_left h2,
      _overlap_minutes_of_inside (by omega) (by omega) (by omega)]
    ring
  have r1 : _allocation_row [(T, T + 90)] cs ce ⟨"Dancefloor coverage", T, T + 90, "photo"⟩ =
      some ("photo", 90) := by
    unfold _allocation_row
    dsimp only
    rw [o1, if_neg (show ¬("photo" = "coverage" ∨ "photo" = "window") by decide),
      if_neg (show ¬((90 : Int) ≤ 0) by decide),
      if_neg (fun h : ("photo" = "event" ∧ ("Dancefloor coverage" = "Cake cutting" ∨
          "Dancefloor coverage" = "Bouquet toss" ∨ "Dancefloor coverage" = "Garter toss")) ∧
          ([((T : Int), T + 90)] ≠ []) => absurd h.1.1 (by decide)),
      if_neg (show ¬((90 : Int) ≤ 0) by decide)]
  have r2 : _allocation_row [(T, T + 90)] cs ce ⟨"Cake cutting", T + 15, T + 25, "event"⟩ =
      none := by
    unfold _allocation_row
    dsimp only
    rw [o2, if_neg (show ¬("event" = "coverage" ∨ "event" = "window") by decide),
      if_neg (show ¬((10 : Int) ≤ 0) by decide),
      if_pos (show ("event" = "event" ∧ ("Cake cutting" = "Cake cutting" ∨
          "Cake cutting" = "Bouquet toss" ∨ "Cake cutting" = "Garter toss")) ∧
          ([((T : Int), T + 90)] ≠ []) from ⟨by decide, by simp⟩)]
    unfold _embedded_in_dancefloor_minutes
    dsimp only
    simp only [List.foldl_cons, List.foldl_nil, zero_add, o3]
    norm_num
  unfold coverage_allocation_rows
  rw [c2_dancefloor]
  unfold c2_blocks
  simp only [List.filterMap_cons, List.filterMap_nil, r1, r2]

/-- C2: with a dancefloor block `[T, T+90]` and an embedded cake-cutting
block `[T+15, T+25]`, both inside coverage, the by-kind breakdown credits the
10 embedded minutes once (under `"photo"`): `"photo"` gets 90, `"event"` gets
0, and the pair accounts for 90 minutes, not 100. -/
theorem coverage_allocation_no_double_count (T cs ce : Int)
    (h1 : cs ≤ T) (h2 : T + 90 ≤ ce) :
    coverage_allocation_by_kind (c2_blocks T) cs ce "photo" = 90 ∧
    coverage_allocation_by_kind (c2_blocks T) cs ce "event" = 0 ∧
    coverage_allocation_by_kind (c2_blocks T) cs ce "photo" +
      coverage_allocation_by_kind (c2_blocks T) cs ce "event" = 90 := by
  unfold coverage_allocation_by_kind
  rw [c2_rows T cs ce h1 h2]
  refine ⟨by decide, by decide, by decide⟩

/-- Witness for C2 at `T = 60` inside the window `[0, 480]`. -/
theorem coverage_allocation_no_double_count_witness :
    coverage_allocation_by_kind (c2_blocks 60) 0 480 "photo" = 90 ∧
    coverage_allocation_by_kind (c2_blocks 60) 0 480 "event" = 0 ∧
    coverage_allocation_by_kind (c2_blocks 60) 0 480 "photo" +
      coverage_allocation_by_kind (c2_blocks 60) 0 480 "event" = 90 :=
  coverage_allocation_no_double_count 60 0 480 (by decide) (by decide)

/-! ## Engine infrastructure lemmas -/

/-- The data-model precondition (spec §3/§8): every configured duration is a
non-negative whole number of minutes.  Buffer, travel, tuckaway, gap and
arrival-setup minutes are deliberately not constrained: the engine guards
those with its own positivity checks. -/
def ValidDurations (inputs : EventInputs) : Prop :=
  0 ≤ inputs.flatlay_details_minutes ∧
  0 ≤ inputs.getting_dressed_minutes ∧
  0 ≤ inputs.individual_portraits_minutes ∧
  0 ≤ inputs.first_look_minutes ∧
  0 ≤ inputs.couple_portraits_minutes ∧
  0 ≤ inputs.wedding_party_portraits_minutes ∧
  0 ≤ inputs.family_portraits_minutes ∧
  0 ≤ inputs.minutes_per_family_grouping ∧
  0 ≤ inputs.ceremony_minutes ∧
  0 ≤ inputs.receiving_line_minutes ∧
  0 ≤ inputs.cocktail_hour_minutes ∧
  0 ≤ inputs.golden_hour_window_minutes ∧
  0 ≤ inputs.reception_events.grand_entrance_minutes ∧
  0 ≤ inputs.reception_events.first_dance_minutes ∧
  0 ≤ inputs.reception_events.parent_dances_minutes ∧
  0 ≤ inputs.reception_events.toasts_minutes ∧
  0 ≤ inputs.reception_events.dinner_minutes ∧
  0 ≤ inputs.reception_events.dancefloor_minutes ∧
  0 ≤ inputs.reception_events.cake_cutting_minutes ∧
  0 ≤ inputs.reception_events.bouquet_toss_minutes ∧
  0 ≤ inputs.reception_events.garter_toss_minutes

instance (inputs : EventInputs) : Decidable (ValidDurations inputs) := by
  unfold ValidDurations; infer_instance

/-- Family portrait minutes are non-negative under the duration
precondition. -/
theorem _family_minutes_nonneg {inputs : EventInputs} (h : ValidDurations inputs) :
    0 ≤ _family_minutes inputs := by
  obtain ⟨-, -, -, -, -, -, h7, h8, -⟩ := h
  unfold _family_minutes
  cases hg : inputs.family_groupings with
  | none => exact h7
  | some g =>
    dsimp only
    split_ifs with hpos
    · exact mul_nonneg (by omega) h8
    · exact h7

/-- The blocks named `n` of a block list, in order. -/
def filterName (blocks : List TimelineBlock) (n : String) : List TimelineBlock :=
  blocks.filter (fun b => decide (b.name = n))

theorem filterName_append (l1 l2 : List TimelineBlock) (n : String) :
    filterName (l1 ++ l2) n = filterName l1 n ++ filterName l2 n := by
  unfold filterName; exact List.filter_append ..

theorem filterName_eq_nil {l : List TimelineBlock} {n : String}
    (h : ∀ b ∈ l, b.name ≠ n) : filterName l n = [] := by
  unfold filterName
  rw [List.filter_eq_nil]
  intro b hb
  simp [h b hb]

/-- A phase that appends only blocks named outside `n` leaves `filterName`
unchanged. -/
theorem filterName_of_tail {bs bs' tl : List TimelineBlock} {n : String}
    (h : bs' = bs ++ tl) (hn : ∀ b ∈ tl, b.name ≠ n) :
    filterName bs' n = filterName bs n := by
  rw [h, filterName_append, filterName_eq_nil hn, List.append_nil]

/-- Every block of `_buffer_tail` is a well-formed buffer block starting at
the cursor and ending at the new cursor. -/
theorem mem_buffer_tail {b : TimelineBlock} {t m : Int} (h : b ∈ _buffer_tail t m) :
    b.name = "Buffer/transition" ∧ b.kind = "buffer" ∧ b.start = t ∧
      b.«end» = _buffer_t t m ∧ b.start ≤ b.«end» := by
  unfold _buffer_tail at h
  split_ifs at h with hm
  · simp at h
  · simp only [List.mem_singleton] at h
    subst h
    refine ⟨rfl, rfl, rfl, by simp [_buffer_t, hm], by simp [add_minutes]; omega⟩

/-- Every block of `_travel_tail` is a well-formed travel block starting at
the cursor and ending at the new cursor. -/
theorem mem_travel_tail {b : TimelineBlock} {t m : Int} {s : String}
    (h : b ∈ _travel_tail t m s) :
    b.name = "Travel: " ++ s ∧ b.kind = "travel" ∧ b.start = t ∧
      b.«end» = _travel_t t m ∧ b.start ≤ b.«end» := by
  unfold _travel_tail at h
  split_ifs at h with hm
  · simp at h
  · simp only [List.mem_singleton] at h
    subst h
    refine ⟨rfl, rfl, rfl, by simp [_travel_t, hm], by simp [add_minutes]; omega⟩

/-- Every block of `_gap_tail` is a well-formed gap block. -/
theorem mem_gap_tail {b : TimelineBlock} {t m : Int} (h : b ∈ _gap_tail t m) :
    b.name = "Gap before cocktail hour" ∧ b.kind = "buffer" ∧ b.start ≤ b.«end» := by
  unfold _gap_tail at h
  split_ifs at h with hm
  · simp at h
  · simp only [List.mem_singleton] at h
    subst h
    exact ⟨rfl, rfl, by simp [add_minutes]; omega⟩

theorem _buffer_t_ge (t m : Int) : t ≤ _buffer_t t m := by
  unfold _buffer_t add_minutes; split_ifs <;> omega

theorem _travel_t_ge (t m : Int) : t ≤ _travel_t t m := by
  unfold _travel_t add_minutes; split_ifs <;> omega

/-- `bs'` extends `bs` by appended blocks, all satisfying `P`.  Every engine
phase only appends to the block list, so its effect is captured by this
relation with a phase-specific `P`. -/
def AppendsP (bs bs' : List TimelineBlock) (P : TimelineBlock → Prop) : Prop :=
  ∃ tl, bs' = bs ++ tl ∧ ∀ b ∈ tl, P b

theorem AppendsP.refl (bs : List TimelineBlock) (P : TimelineBlock → Prop) :
    AppendsP bs bs P :=
  ⟨[], by simp, by simp⟩

theorem AppendsP.trans {bs bs' bs'' : List TimelineBlock} {P : TimelineBlock → Prop}
    (h1 : AppendsP bs bs' P) (h2 : AppendsP bs' bs'' P) : AppendsP bs bs'' P := by
  obtain ⟨t1, e1, p1⟩ := h1
  obtain ⟨t2, e2, p2⟩ := h2
  refine ⟨t1 ++ t2, by simp [e2, e1], ?_⟩
  intro b hb
  rcases List.mem_append.mp hb with hb | hb
  · exact p1 b hb
  · exact p2 b hb

theorem AppendsP.tail {bs tl : List TimelineBlock} {P : TimelineBlock → Prop}
    (h : ∀ b ∈ tl, P b) : AppendsP bs (bs ++ tl) P :=
  ⟨tl, rfl, h⟩

theorem AppendsP.add_block {bs : List TimelineBlock} {P : TimelineBlock → Prop}
    {n k : String} {t m : Int} (h : P ⟨n, t, add_minutes t m, k⟩) :
    AppendsP bs (_add_block bs n t m k).1 P :=
  ⟨[⟨n, t, add_minutes t m, k⟩], rfl, by simp [h]⟩

theorem AppendsP.add_buffer {bs : List TimelineBlock} {P : TimelineBlock → Prop} {t m : Int}
    (h : ∀ b : TimelineBlock, b.name = "Buffer/transition" → b.kind = "buffer" →
      b.start ≤ b.«end» → P b) :
    AppendsP bs (_add_buffer bs t m).1 P := by
  refine AppendsP.tail ?_
  intro b hb
  obtain ⟨h1, h2, -, -, h3⟩ := mem_buffer_tail hb
  exact h b h1 h2 h3

theorem AppendsP.add_travel {bs : List TimelineBlock} {P : TimelineBlock → Prop}
    {t m : Int} {s : String}
    (h : ∀ b : TimelineBlock, b.name = "Travel: " ++ s → b.kind = "travel" →
      b.start ≤ b.«end» → P b) :
    AppendsP bs (_add_travel bs t m s).1 P := by
  refine AppendsP.tail ?_
  intro b hb
  obtain ⟨h1, h2, -, -, h3⟩ := mem_travel_tail hb
  exact h b h1 h2 h3

theorem AppendsP.mem_mono {bs bs' : List TimelineBlock} {P : TimelineBlock → Prop}
    {b : TimelineBlock} (h : AppendsP bs bs' P) (hb : b ∈ bs) : b ∈ bs' := by
  obtain ⟨tl, e, -⟩ := h
  rw [e]
  exact List.mem_append_left _ hb

theorem AppendsP.all {bs bs' : List TimelineBlock} {P Q : TimelineBlock → Prop}
    (h : AppendsP bs bs' P) (hall : ∀ b ∈ bs, Q b) (himp : ∀ b, P b → Q b) :
    ∀ b ∈ bs', Q b := by
  obtain ⟨tl, e, p⟩ := h
  rw [e]
  intro b hb
  rcases List.mem_append.mp hb with hb | hb
  · exact hall b hb
  · exact himp b (p b hb)

theorem AppendsP.filterName_eq {bs bs' : List TimelineBlock} {P : TimelineBlock → Prop}
    {n : String} (h : AppendsP bs bs' P) (hn : ∀ b, P b → b.name ≠ n) :
    filterName bs' n = filterName bs n := by
  obtain ⟨tl, e, p⟩ := h
  exact filterName_of_tail e (fun b hb => hn b (p b hb))

theorem AppendsP.mono {bs bs' : List TimelineBlock} {P Q : TimelineBlock → Prop}
    (h : AppendsP bs bs' P) (himp : ∀ b, P b → Q b) : AppendsP bs bs' Q := by
  obtain ⟨tl, e, p⟩ := h
  exact ⟨tl, e, fun b hb => himp b (p b hb)⟩

/-- Cursor-invariant step lemma: `_add_block` at the cursor with a
non-negative duration keeps every block end at or before the new cursor. -/
theorem _add_block_inv {bs : List TimelineBlock} {t m : Int} {n k : String}
    (hm : 0 ≤ m) (h : ∀ b ∈ bs, b.«end» ≤ t) :
    ∀ b ∈ (_add_block bs n t m k).1, b.«end» ≤ (_add_block bs n t m k).2 := by
  intro b hb
  unfold _add_block at hb ⊢
  rcases List.mem_append.mp hb with hb | hb
  · have := h b hb
    simp only [add_minutes]
    omega
  · simp only [List.mem_singleton] at hb
    subst hb
    simp [add_minutes]

/-- Cursor-invariant step lemma for `_add_buffer`. -/
theorem _add_buffer_inv {bs : List TimelineBlock} {t m : Int}
    (h : ∀ b ∈ bs, b.«end» ≤ t) :
    ∀ b ∈ (_add_buffer bs t m).1, b.«end» ≤ (_add_buffer bs t m).2 := by
  intro b hb
  unfold _add_buffer at hb ⊢
  rcases List.mem_append.mp hb with hb | hb
  · exact le_trans (h b hb) (_buffer_t_ge t m)
  · obtain ⟨-, -, -, he, -⟩ := mem_buffer_tail hb
    simp [he]

/-- Cursor-invariant step lemma for `_add_travel`. -/
theorem _add_travel_inv {bs : List TimelineBlock} {t m : Int} {s : String}
    (h : ∀ b ∈ bs, b.«end» ≤ t) :
    ∀ b ∈ (_add_travel bs t m s).1, b.«end» ≤ (_add_travel bs t m s).2 := by
  intro b hb
  unfold _add_travel at hb ⊢
  rcases List.mem_append.mp hb with hb | hb
  · exact le_trans (h b hb) (_travel_t_ge t m)
  · obtain ⟨-, -, -, he, -⟩ := mem_travel_tail hb
    simp [he]

/-- A buffer block: the only block shape `_add_buffer` can append. -/
def BufferLike (b : TimelineBlock) : Prop :=
  b.name = "Buffer/transition" ∧ b.start ≤ b.«end»

/-- The block shapes the pre-ceremony prep steps can append. -/
def prepP (inputs : EventInputs) (b : TimelineBlock) : Prop :=
  (b.name = "Flat lay & details" ∧ b.«end» = b.start + inputs.flatlay_details_minutes) ∨
  (b.name = "Getting dressed" ∧ b.«end» = b.start + inputs.getting_dressed_minutes) ∨
  (b.name = "Individual portraits" ∧ b.«end» = b.start + inputs.individual_portraits_minutes) ∨
  (b.name = "Travel: Getting ready → Ceremony" ∧ b.start ≤ b.«end») ∨
  BufferLike b

/-- The prep steps only append prep blocks and never touch warnings. -/
theorem prep_steps_appends (inputs : EventInputs) (st : BuildState) :
    AppendsP st.blocks (prep_steps inputs st).blocks (prepP inputs) ∧
    (prep_steps inputs st).warnings = st.warnings := by
  unfold prep_steps _add_block _add_buffer _add_travel
  dsimp only
  refine ⟨⟨_, by simp only [List.append_assoc]; rfl, ?_⟩, rfl⟩
  intro b hb
  simp only [List.mem_append, List.mem_singleton] at hb
  rcases hb with rfl | hb | rfl | hb | rfl | hb | hb | hb
  · exact Or.inl ⟨rfl, rfl⟩
  · exact Or.inr (Or.inr (Or.inr (Or.inr
      ⟨(mem_buffer_tail hb).1, (mem_buffer_tail hb).2.2.2.2⟩)))
  · exact Or.inr (Or.inl ⟨rfl, rfl⟩)
  · exact Or.inr (Or.inr (Or.inr (Or.inr
      ⟨(mem_buffer_tail hb).1, (mem_buffer_tail hb).2.2.2.2⟩)))
  · exact Or.inr (Or.inr (Or.inl ⟨rfl, rfl⟩))
  · exact Or.inr (Or.inr (Or.inr (Or.inr
      ⟨(mem_buffer_tail hb).1, (mem_buffer_tail hb).2.2.2.2⟩)))
  · exact Or.inr (Or.inr (Or.inr (Or.inl
      ⟨(mem_travel_tail hb).1, (mem_travel_tail hb).2.2.2.2⟩)))
  · exact Or.inr (Or.inr (Or.inr (Or.inr
      ⟨(mem_buffer_tail hb).1, (mem_buffer_tail hb).2.2.2.2⟩)))

/-- The block shapes the first-look branch can append. -/
def firstLookP (inputs : EventInputs) (b : TimelineBlock) : Prop :=
  (b.name = "First look" ∧ b.«end» = b.start + inputs.first_look_minutes) ∨
  (b.name = "Couple portraits" ∧ b.«end» = b.start + inputs.couple_portraits_minutes) ∨
  (b.name = "Wedding party portraits" ∧
    b.«end» = b.start + inputs.wedding_party_portraits_minutes) ∨
  (b.name = "Family portraits" ∧ b.«end» = b.start + _family_minutes inputs) ∨
  BufferLike b

/-- The first-look branch only appends first-look blocks; with no first look
it is the identity. -/
theorem first_look_steps_appends (inputs : EventInputs) (st : BuildState) :
    AppendsP st.blocks (first_look_steps inputs st).blocks (firstLookP inputs) ∧
    (first_look_steps inputs st).warnings = st.warnings := by
  unfold first_look_steps _add_block _add_buffer
  split_ifs with hfl
  · dsimp only
    refine ⟨⟨_, by simp only [List.append_assoc]; rfl, ?_⟩, rfl⟩
    intro b hb
    simp only [List.mem_append, List.mem_singleton] at hb
    rcases hb with rfl | hb | rfl | hb | rfl | hb | rfl | hb
    · exact Or.inl ⟨rfl, rfl⟩
    · exact Or.inr (Or.inr (Or.inr (Or.inr
        ⟨(mem_buffer_tail hb).1, (mem_buffer_tail hb).2.2.2.2⟩)))
    · exact Or.inr (Or.inl ⟨rfl, rfl⟩)
    · exact Or.inr (Or.inr (Or.inr (Or.inr
        ⟨(mem_buffer_tail hb).1, (mem_buffer_tail hb).2.2.2.2⟩)))
    · exact Or.inr (Or.inr (Or.inl ⟨rfl, rfl⟩))
    · exact Or.inr (Or.inr (Or.inr (Or.inr
        ⟨(mem_buffer_tail hb).1, (mem_buffer_tail hb).2.2.2.2⟩)))
    · exact Or.inr (Or.inr (Or.inr (Or.inl ⟨rfl, rfl⟩)))
    · exact Or.inr (Or.inr (Or.inr (Or.inr
        ⟨(mem_buffer_tail hb).1, (mem_buffer_tail hb).2.2.2.2⟩)))
  · exact ⟨AppendsP.refl _ _, rfl⟩

/-- The block shapes the tuckaway section can append. -/
def tuckawayP (b : TimelineBlock) : Prop :=
  (b.name = "Tuckaway before ceremony" ∨ b.name = "Flexible pre-ceremony coverage") ∧
  b.start ≤ b.«end»

/-- The tuckaway section only appends tuckaway blocks (both guarded by
positive durations). -/
theorem tuckaway_steps_appends (inputs : EventInputs) (st : BuildState) :
    AppendsP st.blocks (tuckaway_steps inputs st).blocks tuckawayP := by
  unfold tuckaway_steps _add_block
  simp only [add_minutes, minutes_between]
  split_ifs with h1 h2 h3 h4 h5
  · refine ⟨_, by simp only [List.append_assoc]; rfl, ?_⟩
    intro b hb
    simp only [List.mem_append, List.mem_singleton] at hb
    rcases hb with rfl | rfl
    · exact ⟨Or.inl rfl, by dsimp only; omega⟩
    · exact ⟨Or.inr rfl, by dsimp only; omega⟩
  · refine ⟨_, rfl, ?_⟩
    intro b hb
    simp only [List.mem_singleton] at hb
    subst hb
    exact ⟨Or.inl rfl, by dsimp only; omega⟩
  · refine ⟨_, rfl, ?_⟩
    intro b hb
    simp only [List.mem_singleton] at hb
    subst hb
    exact ⟨Or.inr rfl, by dsimp only; omega⟩
  · exact AppendsP.refl _ _
  · exact AppendsP.refl _ _
  · exact AppendsP.refl _ _

/-- The overrun check never touches blocks. -/
theorem pre_ceremony_overrun_check_blocks (inputs : EventInputs) (st : BuildState) :
    (pre_ceremony_overrun_check inputs st).blocks = st.blocks := by
  unfold pre_ceremony_overrun_check
  split_ifs <;> rfl

/-- The overrun check never touches the cursor. -/
theorem pre_ceremony_overrun_check_t (inputs : EventInputs) (st : BuildState) :
    (pre_ceremony_overrun_check inputs st).t = st.t := by
  unfold pre_ceremony_overrun_check
  split_ifs <;> rfl

/-- The block shapes the ceremony phase can append: the ceremony block is
pinned exactly to `[ceremony_start, ceremony_start + ceremony_minutes]`. -/
def ceremonyP (inputs : EventInputs) (b : TimelineBlock) : Prop :=
  (b = ⟨"Ceremony", inputs.ceremony_start,
      add_minutes inputs.ceremony_start inputs.ceremony_minutes, "event"⟩) ∨
  (b.name = "Receiving line" ∧ b.«end» = b.start + inputs.receiving_line_minutes) ∨
  BufferLike b

/-- The ceremony phase only appends ceremony blocks. -/
theorem ceremony_phase_appends (inputs : EventInputs) (st : BuildState) :
    AppendsP st.blocks (ceremony_phase inputs st).blocks (ceremonyP inputs) ∧
    (ceremony_phase inputs st).warnings = st.warnings := by
  unfold ceremony_phase _add_block _add_buffer
  split_ifs with hrl
  · dsimp only
    refine ⟨⟨_, by simp only [List.append_assoc]; rfl, ?_⟩, rfl⟩
    intro b hb
    simp only [List.mem_append, List.mem_singleton] at hb
    rcases hb with rfl | rfl | hb | hb
    · exact Or.inl rfl
    · exact Or.inr (Or.inl ⟨rfl, rfl⟩)
    · exact Or.inr (Or.inr ⟨(mem_buffer_tail hb).1, (mem_buffer_tail hb).2.2.2.2⟩)
    · exact Or.inr (Or.inr ⟨(mem_buffer_tail hb).1, (mem_buffer_tail hb).2.2.2.2⟩)
  · dsimp only
    refine ⟨⟨_, by simp only [List.append_assoc]; rfl, ?_⟩, rfl⟩
    intro b hb
    simp only [List.mem_append, List.mem_singleton] at hb
    rcases hb with rfl | hb
    · exact Or.inl rfl
    · exact Or.inr (Or.inr ⟨(mem_buffer_tail hb).1, (mem_buffer_tail hb).2.2.2.2⟩)

/-- The block shapes the post-ceremony portrait branch can append; under the
duration precondition every one of them starts at or after the entry
cursor. -/
def postP (inputs : EventInputs) (t0 : Int) (b : TimelineBlock) : Prop :=
  ((b.name = "Family portraits" ∧ b.«end» = b.start + _family_minutes inputs) ∨
   (b.name = "Wedding party portraits" ∧
     b.«end» = b.start + inputs.wedding_party_portraits_minutes) ∨
   (b.name = "Couple portraits" ∧ b.«end» = b.start + inputs.couple_portraits_minutes) ∨
   BufferLike b) ∧
  (ValidDurations inputs → t0 ≤ b.start)

/-- The post-ceremony branch only appends post-ceremony portrait blocks, all
starting at or after the entry cursor; with a first look it is the
identity. -/
theorem post_ceremony_phase_appends (inputs : EventInputs) (st : BuildState) :
    AppendsP st.blocks (post_ceremony_phase inputs st).blocks (postP inputs st.t) := by
  unfold post_ceremony_phase _add_block _add_buffer
  cases hfl : inputs.first_look with
  | true =>
    simp only [hfl, Bool.not_true]
    exact AppendsP.refl _ _
  | false =>
    simp only [hfl, Bool.not_false, if_true]
    refine ⟨_, by simp only [List.append_assoc]; rfl, ?_⟩
    have gf : ∀ hv : ValidDurations inputs, 0 ≤ _family_minutes inputs :=
      fun hv => _family_minutes_nonneg hv
    have g1 := _buffer_t_ge (add_minutes st.t (_family_minutes inputs))
      (inputs.buffer_minutes + _extra_family_buffer inputs)
    have g2 := _buffer_t_ge
      (add_minutes (_buffer_t (add_minutes st.t (_family_minutes inputs))
        (inputs.buffer_minutes + _extra_family_buffer inputs))
        inputs.wedding_party_portraits_minutes)
      inputs.buffer_minutes
    intro b hb
    simp only [List.mem_append, List.mem_singleton] at hb
    rcases hb with rfl | hb | rfl | hb | rfl | hb
    · exact ⟨Or.inl ⟨rfl, rfl⟩, fun _ => le_refl _⟩
    · refine ⟨Or.inr (Or.inr (Or.inr
        ⟨(mem_buffer_tail hb).1, (mem_buffer_tail hb).2.2.2.2⟩)), fun hv => ?_⟩
      obtain ⟨-, -, hs, -, -⟩ := mem_buffer_tail hb
      have := gf hv
      simp only [add_minutes] at hs
      omega
    · refine ⟨Or.inr (Or.inl ⟨rfl, rfl⟩), fun hv => ?_⟩
      have := gf hv
      simp only [add_minutes] at g1 ⊢
      omega
    · refine ⟨Or.inr (Or.inr (Or.inr
        ⟨(mem_buffer_tail hb).1, (mem_buffer_tail hb).2.2.2.2⟩)), fun hv => ?_⟩
      obtain ⟨-, -, hs, -, -⟩ := mem_buffer_tail hb
      have := gf hv
      obtain ⟨-, -, -, -, -, h6, -⟩ := hv
      simp only [add_minutes] at hs g1 ⊢
      omega
    · refine ⟨Or.inr (Or.inr (Or.inl ⟨rfl, rfl⟩)), fun hv => ?_⟩
      have := gf hv
      obtain ⟨-, -, -, -, -, h6, -⟩ := hv
      simp only [add_minutes] at g1 g2 ⊢
      omega
    · refine ⟨Or.inr (Or.inr (Or.inr
        ⟨(mem_buffer_tail hb).1, (mem_buffer_tail hb).2.2.2.2⟩)), fun hv => ?_⟩
      obtain ⟨-, -, hs, -, -⟩ := mem_buffer_tail hb
      have := gf hv
      obtain ⟨-, -, -, -, h5, h6, -⟩ := hv
      simp only [add_minutes] at hs g1 g2 ⊢
      omega

/-- The travel-to-reception phase only appends the one guarded travel
block. -/
theorem travel_to_reception_phase_appends (inputs : EventInputs) (st : BuildState) :
    AppendsP st.blocks (travel_to_reception_phase inputs st).blocks
      (fun b => b.name = "Travel: Ceremony → Reception" ∧ b.start ≤ b.«end») ∧
    (travel_to_reception_phase inputs st).warnings = st.warnings := by
  unfold travel_to_reception_phase _add_travel
  dsimp only
  refine ⟨⟨_, rfl, ?_⟩, rfl⟩
  intro b hb
  exact ⟨(mem_travel_tail hb).1, (mem_travel_tail hb).2.2.2.2⟩

/-- Full characterization of the cocktail-hour phase: exactly one cocktail
block at the computed start (anchored before `reception_start` when given,
else the cursor), the early-start warning exactly when that start precedes
the cursor, and the cursor advanced past the cocktail end's buffer.  The
optional gap branch is dead code (`cocktail_hour_follows_ceremony` is always
`true`). -/
theorem cocktail_phase_eq (inputs : EventInputs) (st : BuildState) :
    cocktail_phase inputs st =
      ⟨st.blocks ++ [⟨"Cocktail hour", cocktail_start_of inputs st.t,
          add_minutes (cocktail_start_of inputs st.t) inputs.cocktail_hour_minutes,
          cocktail_kind inputs⟩] ++
        _buffer_tail (add_minutes (cocktail_start_of inputs st.t) inputs.cocktail_hour_minutes)
          inputs.buffer_minutes,
       st.warnings ++
        (if cocktail_start_of inputs st.t < st.t then
          [Warning.cocktailStartEarly (cocktail_start_of inputs st.t) st.t]
         else []),
       _buffer_t (add_minutes (cocktail_start_of inputs st.t) inputs.cocktail_hour_minutes)
         inputs.buffer_minutes⟩ := by
  cases hrs : inputs.reception_start with
  | none =>
    simp only [cocktail_phase, cocktail_start_of, hrs, cocktail_hour_follows_ceremony,
      Bool.not_true, _add_block, _add_buffer]
    simp
  | some rs =>
    simp only [cocktail_phase, cocktail_start_of, hrs, _add_block, _add_buffer]

/-- The cocktail phase, as an append of the cocktail block and its buffer. -/
theorem cocktail_phase_appends (inputs : EventInputs) (st : BuildState) :
    AppendsP st.blocks (cocktail_phase inputs st).blocks
      (fun b => (b.name = "Cocktail hour" ∧ b.kind = cocktail_kind inputs ∧
          b.«end» = b.start + inputs.cocktail_hour_minutes) ∨ BufferLike b) := by
  rw [cocktail_phase_eq]
  refine ⟨_, by simp only [List.append_assoc]; rfl, ?_⟩
  intro b hb
  simp only [List.mem_append, List.mem_singleton] at hb
  rcases hb with rfl | hb
  · exact Or.inl ⟨rfl, rfl, rfl⟩
  · exact Or.inr ⟨(mem_buffer_tail hb).1, (mem_buffer_tail hb).2.2.2.2⟩

/-- The block shapes the reception-anchor phase can append. -/
def anchorP (b : TimelineBlock) : Prop :=
  (b.name = "Reception start" ∧ b.«end» = b.start + 0) ∨
  (b.name = "Reception details (before guests enter)" ∧ b.start ≤ b.«end»)

/-- The reception-anchor phase only appends the zero-duration marker and the
guarded details filler. -/
theorem reception_anchor_phase_appends (inputs : EventInputs) (st : BuildState) :
    AppendsP st.blocks (reception_anchor_phase inputs st).blocks anchorP := by
  cases hrs : inputs.reception_start with
  | none =>
    simp only [reception_anchor_phase, hrs]
    exact AppendsP.refl _ _
  | some rs =>
    simp only [reception_anchor_phase, hrs, _add_block, add_minutes, minutes_between]
    split_ifs with h1 h2 h3 h4 h5 <;>
      [skip; skip; skip; skip; skip; skip] <;>
      first
      | (refine ⟨_, by simp only [List.append_assoc]; rfl, ?_⟩
         intro b hb
         simp only [List.mem_append, List.mem_singleton] at hb
         rcases hb with rfl | rfl
         · exact Or.inl ⟨rfl, rfl⟩
         · exact Or.inr ⟨rfl, by dsimp only; omega⟩)
      | (refine ⟨_, rfl, ?_⟩
         intro b hb
         simp only [List.mem_singleton] at hb
         subst hb
         exact Or.inl ⟨rfl, rfl⟩)

/-- Full characterization of `schedule_event_if_toggle` for an enabled event
with a supplied hard time `w`: the event block starts exactly at `w` (the
anchor wins even when `w` is before the cursor), the backward-jump warning is
appended exactly when `w < st.t`, and the cursor resumes from the block's
end plus the buffer. -/
theorem schedule_event_if_toggle_hard_eq (inputs : EventInputs) (st : BuildState)
    (name : String) (w : Int) (minutes : Int) :
    schedule_event_if_toggle inputs st name true (some w) minutes =
      ⟨st.blocks ++ [⟨name, w, add_minutes w minutes, "event"⟩] ++
         _buffer_tail (add_minutes w minutes) inputs.buffer_minutes,
       st.warnings ++
         (if w < st.t then [Warning.eventEarlierThanCursor name w st.t] else []),
       _buffer_t (add_minutes w minutes) inputs.buffer_minutes⟩ := by
  simp only [schedule_event_if_toggle, Bool.not_true, _add_block, _add_buffer]
  simp

/-- `schedule_event_if_toggle` only appends the named event block and its
buffer. -/
theorem schedule_event_if_toggle_appends (inputs : EventInputs) (st : BuildState)
    (name : String) (enabled : Bool) (whenTime : Option Int) (minutes : Int) :
    AppendsP st.blocks
      (schedule_event_if_toggle inputs st name enabled whenTime minutes).blocks
      (fun b => (b.name = name ∧ b.«end» = b.start + minutes) ∨ BufferLike b) := by
  unfold schedule_event_if_toggle _add_block _add_buffer
  cases enabled with
  | false => exact AppendsP.refl _ _
  | true =>
    simp only [Bool.not_true, Bool.false_eq_true, if_false]
    refine ⟨_, by simp only [List.append_assoc]; rfl, ?_⟩
    intro b hb
    simp only [List.mem_append, List.mem_singleton] at hb
    rcases hb with rfl | hb
    · exact Or.inl ⟨rfl, rfl⟩
    · exact Or.inr ⟨(mem_buffer_tail hb).1, (mem_buffer_tail hb).2.2.2.2⟩

/-- The block shapes the four hard-time reception events can append. -/
def hardEventsP (inputs : EventInputs) (b : TimelineBlock) : Prop :=
  (b.name = "Grand entrance" ∧
    b.«end» = b.start + inputs.reception_events.grand_entrance_minutes) ∨
  (b.name = "First dance" ∧
    b.«end» = b.start + inputs.reception_events.first_dance_minutes) ∨
  (b.name = "Parent dances" ∧
    b.«end» = b.start + inputs.reception_events.parent_dances_minutes) ∨
  (b.name = "Toasts" ∧ b.«end» = b.start + inputs.reception_events.toasts_minutes) ∨
  BufferLike b

/-- The hard-events phase only appends the four event blocks and buffers. -/
theorem hard_events_phase_appends (inputs : EventInputs) (st : BuildState) :
    AppendsP st.blocks (hard_events_phase inputs st).blocks (hardEventsP inputs) := by
  unfold hard_events_phase
  refine AppendsP.trans ((schedule_event_if_toggle_appends ..).mono ?_)
    (AppendsP.trans ((schedule_event_if_toggle_appends ..).mono ?_)
      (AppendsP.trans ((schedule_event_if_toggle_appends ..).mono ?_)
        ((schedule_event_if_toggle_appends ..).mono ?_)))
  · rintro b (h | h)
    · exact Or.inl h
    · exact Or.inr (Or.inr (Or.inr (Or.inr h)))
  · rintro b (h | h)
    · exact Or.inr (Or.inl h)
    · exact Or.inr (Or.inr (Or.inr (Or.inr h)))
  · rintro b (h | h)
    · exact Or.inr (Or.inr (Or.inl h))
    · exact Or.inr (Or.inr (Or.inr (Or.inr h)))
  · rintro b (h | h)
    · exact Or.inr (Or.inr (Or.inr (Or.inl h)))
    · exact Or.inr (Or.inr (Or.inr (Or.inr h)))

/-- Full characterization of the dinner branch with a supplied dinner start
time: the dinner block starts exactly at the anchor, the backward-jump
warning is appended exactly when the anchor is before the cursor. -/
theorem dinner_phase_hard_eq (inputs : EventInputs) (st : BuildState) (d : Int)
    (h1 : inputs.reception_events.dinner = true)
    (h2 : inputs.reception_events.dinner_start_time = some d) :
    dinner_phase inputs st =
      ⟨st.blocks ++ [⟨"Dinner", d, add_minutes d inputs.reception_events.dinner_minutes,
          "event"⟩] ++
         _buffer_tail (add_minutes d inputs.reception_events.dinner_minutes)
           inputs.buffer_minutes,
       st.warnings ++ (if d < st.t then [Warning.dinnerEarlierThanCursor d st.t] else []),
       _buffer_t (add_minutes d inputs.reception_events.dinner_minutes)
         inputs.buffer_minutes⟩ := by
  simp only [dinner_phase, h1, h2, _add_block, _add_buffer]

/-- The dinner phase only appends the dinner block and its buffer. -/
theorem dinner_phase_appends (inputs : EventInputs) (st : BuildState) :
    AppendsP st.blocks (dinner_phase inputs st).blocks
      (fun b => (b.name = "Dinner" ∧
          b.«end» = b.start + inputs.reception_events.dinner_minutes) ∨ BufferLike b) := by
  cases h1 : inputs.reception_events.dinner with
  | false =>
    cases h2 : inputs.reception_events.dinner_start_time <;>
      · simp only [dinner_phase, h1, h2]
        exact AppendsP.refl _ _
  | true =>
    cases h2 : inputs.reception_events.dinner_start_time <;>
      · simp only [dinner_phase, h1, h2, _add_block, _add_buffer]
        refine ⟨_, by simp only [List.append_assoc]; rfl, ?_⟩
        intro b hb
        simp only [List.mem_append, List.mem_singleton] at hb
        rcases hb with rfl | hb
        · exact Or.inl ⟨rfl, rfl⟩
        · exact Or.inr ⟨(mem_buffer_tail hb).1, (mem_buffer_tail hb).2.2.2.2⟩

/-- The clamped start `place_embedded_event` computes: the hard time when
given, else the default offset from the dancefloor start; clamped first up
to `dancefloor_start`, then down to `dancefloor_end - minutes`. -/
def embedded_start (dancefloor_start dancefloor_end : Int) (whenTime : Option Int)
    (minutes default_offset_min : Int) : Int :=
  let start_time :=
    match whenTime with
    | some w => w
    | none => add_minutes dancefloor_start default_offset_min
  let start_time := if start_time < dancefloor_start then dancefloor_start else start_time
  if start_time > add_minutes dancefloor_end (-minutes) then
    add_minutes dancefloor_end (-minutes)
  else start_time

/-- `embedded_start` is the min/max clamp of the hard-or-default start into
`[dancefloor_start, dancefloor_end - minutes]`. -/
theorem embedded_start_eq_clamp (ds de : Int) (whenTime : Option Int) (m off : Int) :
    embedded_start ds de whenTime m off =
      min (max (match whenTime with | some w => w | none => ds + off) ds) (de - m) := by
  unfold embedded_start add_minutes
  cases whenTime <;> dsimp only <;> split_ifs <;> omega

/-- With the interval `[ds, de - m]` non-empty, the clamped start lies in
it. -/
theorem embedded_start_mem (ds de : Int) (whenTime : Option Int) (m off : Int)
    (h : ds ≤ de - m) :
    ds ≤ embedded_start ds de whenTime m off ∧
      embedded_start ds de whenTime m off ≤ de - m := by
  rw [embedded_start_eq_clamp]
  cases whenTime <;> dsimp only <;> constructor <;> omega

/-- `place_embedded_event` for an enabled event appends exactly one event
block of the configured duration at the clamped start. -/
theorem place_embedded_event_eq (blocks : List TimelineBlock) (ds de : Int)
    (name : String) (whenTime : Option Int) (m off : Int) :
    place_embedded_event blocks ds de name true whenTime m off =
      blocks ++ [⟨name, embedded_start ds de whenTime m off,
        add_minutes (embedded_start ds de whenTime m off) m, "event"⟩] := by
  simp only [place_embedded_event, embedded_start, Bool.not_true, _add_block]
  simp

/-- `place_embedded_event` only appends the named event block. -/
theorem place_embedded_event_appends (blocks : List TimelineBlock) (ds de : Int)
    (name : String) (enabled : Bool) (whenTime : Option Int) (m off : Int) :
    AppendsP blocks (place_embedded_event blocks ds de name enabled whenTime m off)
      (fun b => b.name = name ∧ b.«end» = b.start + m) := by
  cases enabled with
  | false =>
    simp only [place_embedded_event, Bool.not_false]
    exact AppendsP.refl _ _
  | true =>
    rw [place_embedded_event_eq]
    refine ⟨_, rfl, ?_⟩
    intro b hb
    simp only [List.mem_singleton] at hb
    subst hb
    exact ⟨rfl, rfl⟩

/-- The block shapes the dancefloor phase can append (either the embedded
layout or the sequential fallback). -/
def dancefloorP (inputs : EventInputs) (b : TimelineBlock) : Prop :=
  (b.name = "Dancefloor coverage" ∧
    b.«end» = b.start + inputs.reception_events.dancefloor_minutes) ∨
  (b.name = "Cake cutting" ∧
    b.«end» = b.start + inputs.reception_events.cake_cutting_minutes) ∨
  (b.name = "Bouquet toss" ∧
    b.«end» = b.start + inputs.reception_events.bouquet_toss_minutes) ∨
  (b.name = "Garter toss" ∧
    b.«end» = b.start + inputs.reception_events.garter_toss_minutes) ∨
  BufferLike b

/-- The dancefloor phase only appends dancefloor blocks. -/
theorem dancefloor_phase_appends (inputs : EventInputs) (st : BuildState) :
    AppendsP st.blocks (dancefloor_phase inputs st).blocks (dancefloorP inputs) := by
  unfold dancefloor_phase
  cases hdf : inputs.reception_events.dancefloor_coverage with
  | true =>
    simp only [hdf, if_true]
    refine AppendsP.trans
      (@AppendsP.add_block st.blocks (dancefloorP inputs) "Dancefloor coverage" "photo"
        st.t inputs.reception_events.dancefloor_minutes (Or.inl ⟨rfl, rfl⟩)) ?_
    refine AppendsP.trans
      ((place_embedded_event_appends
          (_add_block st.blocks "Dancefloor coverage" st.t
            inputs.reception_events.dancefloor_minutes "photo").1
          st.t (add_minutes st.t inputs.reception_events.dancefloor_minutes)
          "Cake cutting" inputs.reception_events.cake_cutting
          inputs.reception_events.cake_cutting_time
          inputs.reception_events.cake_cutting_minutes 15).mono
        fun b h => Or.inr (Or.inl h)) ?_
    refine AppendsP.trans
      ((place_embedded_event_appends
          (place_embedded_event
            (_add_block st.blocks "Dancefloor coverage" st.t
              inputs.reception_events.dancefloor_minutes "photo").1
            st.t (add_minutes st.t inputs.reception_events.dancefloor_minutes)
            "Cake cutting" inputs.reception_events.cake_cutting
            inputs.reception_events.cake_cutting_time
            inputs.reception_events.cake_cutting_minutes 15)
          st.t (add_minutes st.t inputs.reception_events.dancefloor_minutes)
          "Bouquet toss" inputs.reception_events.bouquet_toss
          inputs.reception_events.bouquet_toss_time
          inputs.reception_events.bouquet_toss_minutes 45).mono
        fun b h => Or.inr (Or.inr (Or.inl h))) ?_
    exact (place_embedded_event_appends
        (place_embedded_event
          (place_embedded_event
            (_add_block st.blocks "Dancefloor coverage" st.t
              inputs.reception_events.dancefloor_minutes "photo").1
            st.t (add_minutes st.t inputs.reception_events.dancefloor_minutes)
            "Cake cutting" inputs.reception_events.cake_cutting
            inputs.reception_events.cake_cutting_time
            inputs.reception_events.cake_cutting_minutes 15)
          st.t (add_minutes st.t inputs.reception_events.dancefloor_minutes)
          "Bouquet toss" inputs.reception_events.bouquet_toss
          inputs.reception_events.bouquet_toss_time
          inputs.reception_events.bouquet_toss_minutes 45)
        st.t (add_minutes st.t inputs.reception_events.dancefloor_minutes)
        "Garter toss" inputs.reception_events.garter_toss
        inputs.reception_events.garter_toss_time
        inputs.reception_events.garter_toss_minutes 55).mono
      fun b h => Or.inr (Or.inr (Or.inr (Or.inl h)))
  | false =>
    simp only [hdf, Bool.false_eq_true, if_false]
    refine AppendsP.trans
      ((schedule_event_if_toggle_appends inputs st "Cake cutting"
          inputs.reception_events.cake_cutting inputs.reception_events.cake_cutting_time
          inputs.reception_events.cake_cutting_minutes).mono ?_) ?_
    · rintro b (h | h)
      · exact Or.inr (Or.inl h)
      · exact Or.inr (Or.inr (Or.inr (Or.inr h)))
    refine AppendsP.trans
      ((schedule_event_if_toggle_appends inputs
          (schedule_event_if_toggle inputs st "Cake cutting"
            inputs.reception_events.cake_cutting inputs.reception_events.cake_cutting_time
            inputs.reception_events.cake_cutting_minutes)
          "Bouquet toss" inputs.reception_events.bouquet_toss
          inputs.reception_events.bouquet_toss_time
          inputs.reception_events.bouquet_toss_minutes).mono ?_) ?_
    · rintro b (h | h)
      · exact Or.inr (Or.inr (Or.inl h))
      · exact Or.inr (Or.inr (Or.inr (Or.inr h)))
    refine (schedule_event_if_toggle_appends inputs
        (schedule_event_if_toggle inputs
          (schedule_event_if_toggle inputs st "Cake cutting"
            inputs.reception_events.cake_cutting inputs.reception_events.cake_cutting_time
            inputs.reception_events.cake_cutting_minutes)
          "Bouquet toss" inputs.reception_events.bouquet_toss
          inputs.reception_events.bouquet_toss_time
          inputs.reception_events.bouquet_toss_minutes)
        "Garter toss" inputs.reception_events.garter_toss
        inputs.reception_events.garter_toss_time
        inputs.reception_events.garter_toss_minutes).mono ?_
    rintro b (h | h)
    · exact Or.inr (Or.inr (Or.inr (Or.inl h)))
    · exact Or.inr (Or.inr (Or.inr (Or.inr h)))

/-- The golden-hour phase never moves the cursor or warns. -/
theorem golden_hour_phase_state (inputs : EventInputs) (st : BuildState) :
    (golden_hour_phase inputs st).t = st.t ∧
    (golden_hour_phase inputs st).warnings = st.warnings := by
  cases hs : inputs.sunset_time <;> simp [golden_hour_phase, hs]

/-- The golden-hour phase only appends the golden-hour block. -/
theorem golden_hour_phase_appends (inputs : EventInputs) (st : BuildState) :
    AppendsP st.blocks (golden_hour_phase inputs st).blocks
      (fun b => b.name = "Golden hour portraits" ∧
        b.«end» = b.start + inputs.golden_hour_window_minutes) := by
  cases hs : inputs.sunset_time with
  | none =>
    simp only [golden_hour_phase, hs]
    exact AppendsP.refl _ _
  | some s =>
    simp only [golden_hour_phase, hs, _add_block]
    refine ⟨_, rfl, ?_⟩
    intro b hb
    simp only [List.mem_singleton] at hb
    subst hb
    exact ⟨rfl, rfl⟩

/-- The golden-hour block is present whenever a sunset time is supplied. -/
theorem golden_hour_phase_mem (inputs : EventInputs) (st : BuildState) (s : Int)
    (hs : inputs.sunset_time = some s) :
    (⟨"Golden hour portraits", add_minutes s (-30),
        add_minutes (add_minutes s (-30)) inputs.golden_hour_window_minutes, "photo"⟩ :
      TimelineBlock) ∈ (golden_hour_phase inputs st).blocks := by
  simp only [golden_hour_phase, hs, _add_block]
  simp

/-- `finalize_phase` appends the sentinel and nothing else. -/
theorem finalize_phase_blocks (inputs : EventInputs) (st : BuildState) :
    (finalize_phase inputs st).1 =
      st.blocks ++
        [⟨"Coverage ends", inputs.coverage_end, inputs.coverage_end, "coverage"⟩] := rfl

/-- Tail characterization of the arrival step: it appends only arrival
blocks, each ending no later than the resulting cursor, and never moves the
cursor backwards. -/
theorem arrival_step_tail (inputs : EventInputs) (st : BuildState) :
    ∃ tl, (arrival_step inputs st).blocks = st.blocks ++ tl ∧
      (arrival_step inputs st).warnings = st.warnings ∧
      st.t ≤ (arrival_step inputs st).t ∧
      ∀ b ∈ tl, (b.name = "Photographer arrival" ∨ b.name = "Arrival/Gear setup") ∧
        b.start ≤ b.«end» ∧ b.«end» ≤ (arrival_step inputs st).t := by
  cases hpa : inputs.photographer_arrival_time with
  | none => exact ⟨[], by simp [arrival_step, hpa], by simp [arrival_step, hpa],
      by simp [arrival_step, hpa], by simp⟩
  | some a =>
    simp only [arrival_step, hpa, _add_block, add_minutes]
    split_ifs with h1 h2 h3 <;>
      [skip; skip; dsimp only at h3; skip] <;>
      dsimp only <;>
      refine ⟨_, by first | rw [List.append_assoc] | rfl, trivial, by omega, ?_⟩ <;>
      intro b hb <;>
      simp only [List.mem_append, List.mem_singleton] at hb
    · rcases hb with rfl | rfl <;> exact ⟨by simp, by simp <;> omega, by simp <;> omega⟩
    · rcases hb with rfl | rfl <;> exact ⟨by simp, by simp <;> omega, by simp <;> omega⟩
    · subst hb; exact ⟨by simp, by simp <;> omega, by simp <;> omega⟩
    · subst hb; exact ⟨by simp, by simp <;> omega, by simp <;> omega⟩

/-- The arrival step, as an append of arrival blocks. -/
theorem arrival_step_appends (inputs : EventInputs) (st : BuildState) :
    AppendsP st.blocks (arrival_step inputs st).blocks
      (fun b => (b.name = "Photographer arrival" ∨ b.name = "Arrival/Gear setup") ∧
        b.start ≤ b.«end») := by
  obtain ⟨tl, he, -, -, hP⟩ := arrival_step_tail inputs st
  exact ⟨tl, he, fun b hb => ⟨(hP b hb).1, (hP b hb).2.1⟩⟩

/-- With no first look the first-look branch is the identity. -/
theorem first_look_steps_id (inputs : EventInputs) (st : BuildState)
    (h : inputs.first_look = false) : first_look_steps inputs st = st := by
  simp [first_look_steps, h]

/-- With a first look the post-ceremony branch is the identity. -/
theorem post_ceremony_phase_id (inputs : EventInputs) (st : BuildState)
    (h : inputs.first_look = true) : post_ceremony_phase inputs st = st := by
  simp [post_ceremony_phase, h]

/-- The block shapes the whole pre-ceremony section can append. -/
def preP (inputs : EventInputs) (b : TimelineBlock) : Prop :=
  ((b.name = "Photographer arrival" ∨ b.name = "Arrival/Gear setup") ∧
    b.start ≤ b.«end») ∨
  prepP inputs b ∨ firstLookP inputs b ∨ tuckawayP b

/-- The pre-ceremony phase builds its blocks from the empty list, all of the
pre-ceremony block shapes. -/
theorem pre_ceremony_phase_appends (inputs : EventInputs) :
    AppendsP [] (pre_ceremony_phase inputs).blocks (preP inputs) := by
  unfold pre_ceremony_phase
  rw [show ∀ st, (pre_ceremony_overrun_check inputs st).blocks = st.blocks from
    fun st => pre_ceremony_overrun_check_blocks inputs st]
  refine AppendsP.trans
    ((arrival_step_appends inputs ⟨[], [], inputs.coverage_start⟩).mono
      fun b h => Or.inl h) ?_
  refine AppendsP.trans
    (((prep_steps_appends inputs
        (arrival_step inputs ⟨[], [], inputs.coverage_start⟩)).1).mono
      fun b h => Or.inr (Or.inl h)) ?_
  refine AppendsP.trans
    (((first_look_steps_appends inputs
        (prep_steps inputs (arrival_step inputs ⟨[], [], inputs.coverage_start⟩))).1).mono
      fun b h => Or.inr (Or.inr (Or.inl h))) ?_
  exact (tuckaway_steps_appends inputs
      (first_look_steps inputs
        (prep_steps inputs (arrival_step inputs ⟨[], [], inputs.coverage_start⟩)))).mono
    fun b h => Or.inr (Or.inr (Or.inr h))

/-- Processing from the travel-to-reception phase to the final output
preserves any block predicate `Q` that holds of all blocks named as the
post-portrait phases name theirs. -/
theorem later_phases_all {Q : TimelineBlock → Prop} (inputs : EventInputs)
    (st : BuildState) (h : ∀ b ∈ st.blocks, Q b)
    (hQ : ∀ b : TimelineBlock,
      (b.name = "Travel: Ceremony → Reception" ∨ b.name = "Cocktail hour" ∨
       b.name = "Buffer/transition" ∨ b.name = "Gap before cocktail hour" ∨
       b.name = "Reception start" ∨ b.name = "Reception details (before guests enter)" ∨
       b.name = "Grand entrance" ∨ b.name = "First dance" ∨ b.name = "Parent dances" ∨
       b.name = "Toasts" ∨ b.name = "Dinner" ∨ b.name = "Dancefloor coverage" ∨
       b.name = "Cake cutting" ∨ b.name = "Bouquet toss" ∨ b.name = "Garter toss" ∨
       b.name = "Golden hour portraits" ∨ b.name = "Coverage ends") → Q b) :
    ∀ b ∈ (finalize_phase inputs
      (golden_hour_phase inputs
        (dancefloor_phase inputs
          (dinner_phase inputs
            (hard_events_phase inputs
              (reception_anchor_phase inputs
                (cocktail_phase inputs
                  (travel_to_reception_phase inputs st)))))))).1, Q b := by
  have h1 := (travel_to_reception_phase_appends inputs st).1.all h
    (fun b hp => hQ b (Or.inl hp.1))
  have h2 := (cocktail_phase_appends inputs _).all h1 (fun b hp => by
    rcases hp with ⟨hn, -, -⟩ | ⟨hn, -⟩
    · exact hQ b (Or.inr (Or.inl hn))
    · exact hQ b (Or.inr (Or.inr (Or.inl hn))))
  have h3 := (reception_anchor_phase_appends inputs _).all h2 (fun b hp => by
    rcases hp with ⟨hn, -⟩ | ⟨hn, -⟩
    · exact hQ b (by tauto)
    · exact hQ b (by tauto))
  have h4 := (hard_events_phase_appends inputs _).all h3 (fun b hp => by
    rcases hp with ⟨hn, -⟩ | ⟨hn, -⟩ | ⟨hn, -⟩ | ⟨hn, -⟩ | ⟨hn, -⟩
    all_goals exact hQ b (by tauto))
  have h5 := (dinner_phase_appends inputs _).all h4 (fun b hp => by
    rcases hp with ⟨hn, -⟩ | ⟨hn, -⟩
    all_goals exact hQ b (by tauto))
  have h6 := (dancefloor_phase_appends inputs _).all h5 (fun b hp => by
    rcases hp with ⟨hn, -⟩ | ⟨hn, -⟩ | ⟨hn, -⟩ | ⟨hn, -⟩ | ⟨hn, -⟩
    all_goals exact hQ b (by tauto))
  have h7 := (golden_hour_phase_appends inputs _).all h6 (fun b hp =>
    hQ b (by tauto))
  intro b hb
  rw [finalize_phase_blocks] at hb
  rcases List.mem_append.mp hb with hb | hb
  · exact h7 b hb
  · simp only [List.mem_singleton] at hb
    subst hb
    exact hQ _ (by simp)

theorem prepP_dur {inputs : EventInputs} (hVD : ValidDurations inputs) :
    ∀ b, prepP inputs b → b.start ≤ b.«end» := by
  obtain ⟨h1, h2, h3, -⟩ := hVD
  rintro b (⟨-, he⟩ | ⟨-, he⟩ | ⟨-, he⟩ | ⟨-, hle⟩ | ⟨-, hle⟩) <;> omega

theorem firstLookP_dur {inputs : EventInputs} (hVD : ValidDurations inputs) :
    ∀ b, firstLookP inputs b → b.start ≤ b.«end» := by
  have hfam := _family_minutes_nonneg hVD
  obtain ⟨-, -, -, h4, h5, h6, -⟩ := hVD
  rintro b (⟨-, he⟩ | ⟨-, he⟩ | ⟨-, he⟩ | ⟨-, he⟩ | ⟨-, hle⟩) <;> omega

theorem tuckawayP_dur : ∀ b, tuckawayP b → b.start ≤ b.«end» := by
  rintro b ⟨-, hle⟩
  exact hle

theorem ceremonyP_dur {inputs : EventInputs} (hVD : ValidDurations inputs) :
    ∀ b, ceremonyP inputs b → b.start ≤ b.«end» := by
  obtain ⟨-, -, -, -, -, -, -, -, h9, h10, -⟩ := hVD
  rintro b (rfl | ⟨-, he⟩ | ⟨-, hle⟩)
  · simp only [add_minutes]
    omega
  · omega
  · exact hle

theorem postP_dur {inputs : EventInputs} {t0 : Int} (hVD : ValidDurations inputs) :
    ∀ b, postP inputs t0 b → b.start ≤ b.«end» := by
  have hfam := _family_minutes_nonneg hVD
  obtain ⟨-, -, -, -, h5, h6, -⟩ := hVD
  rintro b ⟨⟨-, he⟩ | ⟨-, he⟩ | ⟨-, he⟩ | ⟨-, hle⟩, -⟩ <;> omega

theorem cocktailP_dur {inputs : EventInputs} (hVD : ValidDurations inputs) :
    ∀ b : TimelineBlock, ((b.name = "Cocktail hour" ∧ b.kind = cocktail_kind inputs ∧
      b.«end» = b.start + inputs.cocktail_hour_minutes) ∨ BufferLike b) →
      b.start ≤ b.«end» := by
  obtain ⟨-, -, -, -, -, -, -, -, -, -, h11, -⟩ := hVD
  rintro b (⟨-, -, he⟩ | ⟨-, hle⟩) <;> omega

theorem anchorP_dur : ∀ b, anchorP b → b.start ≤ b.«end» := by
  rintro b (⟨-, he⟩ | ⟨-, hle⟩) <;> omega

theorem hardEventsP_dur {inputs : EventInputs} (hVD : ValidDurations inputs) :
    ∀ b, hardEventsP inputs b → b.start ≤ b.«end» := by
  obtain ⟨-, -, -, -, -, -, -, -, -, -, -, -, h13, h14, h15, h16, -⟩ := hVD
  rintro b (⟨-, he⟩ | ⟨-, he⟩ | ⟨-, he⟩ | ⟨-, he⟩ | ⟨-, hle⟩) <;> omega

theorem dinnerP_dur {inputs : EventInputs} (hVD : ValidDurations inputs) :
    ∀ b : TimelineBlock, ((b.name = "Dinner" ∧
      b.«end» = b.start + inputs.reception_events.dinner_minutes) ∨ BufferLike b) →
      b.start ≤ b.«end» := by
  obtain ⟨-, -, -, -, -, -, -, -, -, -, -, -, -, -, -, -, h17, -⟩ := hVD
  rintro b (⟨-, he⟩ | ⟨-, hle⟩) <;> omega

theorem dancefloorP_dur {inputs : EventInputs} (hVD : ValidDurations inputs) :
    ∀ b, dancefloorP inputs b → b.start ≤ b.«end» := by
  obtain ⟨-, -, -, -, -, -, -, -, -, -, -, -, -, -, -, -, -, h18, h19, h20, h21⟩ := hVD
  rintro b (⟨-, he⟩ | ⟨-, he⟩ | ⟨-, he⟩ | ⟨-, he⟩ | ⟨-, hle⟩) <;> omega

theorem goldenP_dur {inputs : EventInputs} (hVD : ValidDurations inputs) :
    ∀ b : TimelineBlock, (b.name = "Golden hour portraits" ∧
      b.«end» = b.start + inputs.golden_hour_window_minutes) → b.start ≤ b.«end» := by
  obtain ⟨-, -, -, -, -, -, -, -, -, -, -, h12, -⟩ := hVD
  rintro b ⟨-, he⟩
  omega

theorem preP_dur {inputs : EventInputs} (hVD : ValidDurations inputs) :
    ∀ b, preP inputs b → b.start ≤ b.«end» := by
  rintro b (⟨-, hle⟩ | hp | hp | hp)
  · exact hle
  · exact prepP_dur hVD b hp
  · exact firstLookP_dur hVD b hp
  · exact tuckawayP_dur b hp

/-- Every block of the pre-ceremony phase has a non-negative duration. -/
theorem pre_ceremony_blocks_dur {inputs : EventInputs} (hVD : ValidDurations inputs) :
    ∀ b ∈ (pre_ceremony_phase inputs).blocks, b.start ≤ b.«end» :=
  (pre_ceremony_phase_appends inputs).all (by simp) (preP_dur hVD)

/-- Membership in the block list survives the phases from travel-to-reception
to the final output. -/
theorem later_phases_mem (inputs : EventInputs) (st : BuildState) {b : TimelineBlock}
    (hb : b ∈ st.blocks) :
    b ∈ (finalize_phase inputs
      (golden_hour_phase inputs
        (dancefloor_phase inputs
          (dinner_phase inputs
            (hard_events_phase inputs
              (reception_anchor_phase inputs
                (cocktail_phase inputs
                  (travel_to_reception_phase inputs st)))))))).1 := by
  rw [finalize_phase_blocks]
  refine List.mem_append_left _ ?_
  exact (golden_hour_phase_appends inputs _).mem_mono
    ((dancefloor_phase_appends inputs _).mem_mono
      ((dinner_phase_appends inputs _).mem_mono
        ((hard_events_phase_appends inputs _).mem_mono
          ((reception_anchor_phase_appends inputs _).mem_mono
            ((cocktail_phase_appends inputs _).mem_mono
              ((travel_to_reception_phase_appends inputs st).1.mem_mono hb))))))

theorem ne_of_names {name n : String} {l : List String} (h : name ∈ l) (hn : n ∉ l) :
    name ≠ n := fun e => hn (e ▸ h)

theorem prepP_names {inputs : EventInputs} : ∀ b, prepP inputs b →
    b.name ∈ ["Flat lay & details", "Getting dressed", "Individual portraits",
      "Travel: Getting ready → Ceremony", "Buffer/transition"] := by
  rintro b (⟨h, -⟩ | ⟨h, -⟩ | ⟨h, -⟩ | ⟨h, -⟩ | ⟨h, -⟩) <;> simp [h]

theorem firstLookP_names {inputs : EventInputs} : ∀ b, firstLookP inputs b →
    b.name ∈ ["First look", "Couple portraits", "Wedding party portraits",
      "Family portraits", "Buffer/transition"] := by
  rintro b (⟨h, -⟩ | ⟨h, -⟩ | ⟨h, -⟩ | ⟨h, -⟩ | ⟨h, -⟩) <;> simp [h]

theorem tuckawayP_names : ∀ b, tuckawayP b →
    b.name ∈ ["Tuckaway before ceremony", "Flexible pre-ceremony coverage"] := by
  rintro b ⟨h | h, -⟩ <;> simp [h]

theorem preP_names {inputs : EventInputs} : ∀ b, preP inputs b →
    b.name ∈ ["Photographer arrival", "Arrival/Gear setup", "Flat lay & details",
      "Getting dressed", "Individual portraits", "Travel: Getting ready → Ceremony",
      "Buffer/transition", "First look", "Couple portraits", "Wedding party portraits",
      "Family portraits", "Tuckaway before ceremony", "Flexible pre-ceremony coverage"] := by
  rintro b (⟨h | h, -⟩ | hp | hp | hp)
  · simp [h]
  · simp [h]
  · have := prepP_names b hp
    simp only [List.mem_cons, List.mem_singleton] at this ⊢
    tauto
  · have := firstLookP_names b hp
    simp only [List.mem_cons, List.mem_singleton] at this ⊢
    tauto
  · have := tuckawayP_names b hp
    simp only [List.mem_cons, List.mem_singleton] at this ⊢
    tauto

theorem ceremonyP_names {inputs : EventInputs} : ∀ b, ceremonyP inputs b →
    b.name ∈ ["Ceremony", "Receiving line", "Buffer/transition"] := by
  rintro b (rfl | ⟨h, -⟩ | ⟨h, -⟩)
  · simp
  · simp [h]
  · simp [h]

theorem postP_names {inputs : EventInputs} {t0 : Int} : ∀ b, postP inputs t0 b →
    b.name ∈ ["Family portraits", "Wedding party portraits", "Couple portraits",
      "Buffer/transition"] := by
  rintro b ⟨⟨h, -⟩ | ⟨h, -⟩ | ⟨h, -⟩ | ⟨h, -⟩, -⟩ <;> simp [h]

theorem hardEventsP_names {inputs : EventInputs} : ∀ b, hardEventsP inputs b →
    b.name ∈ ["Grand entrance", "First dance", "Parent dances", "Toasts",
      "Buffer/transition"] := by
  rintro b (⟨h, -⟩ | ⟨h, -⟩ | ⟨h, -⟩ | ⟨h, -⟩ | ⟨h, -⟩) <;> simp [h]

theorem dancefloorP_names {inputs : EventInputs} : ∀ b, dancefloorP inputs b →
    b.name ∈ ["Dancefloor coverage", "Cake cutting", "Bouquet toss", "Garter toss",
      "Buffer/transition"] := by
  rintro b (⟨h, -⟩ | ⟨h, -⟩ | ⟨h, -⟩ | ⟨h, -⟩ | ⟨h, -⟩) <;> simp [h]

theorem anchorP_names : ∀ b, anchorP b →
    b.name ∈ ["Reception start", "Reception details (before guests enter)"] := by
  rintro b (⟨h, -⟩ | ⟨h, -⟩) <;> simp [h]

/-- A small schedule used to instantiate the universally quantified claims:
first look, 600 minutes of coverage, the optional sections switched off. -/
def sampleInputs : EventInputs := {
  coverage_start := 0
  coverage_end := 600
  ceremony_start := 120
  ceremony_minutes := 30
  first_look := true
  cocktail_hour_minutes := 60
  buffer_minutes := 5
  flatlay_details_minutes := 10
  getting_dressed_minutes := 10
  individual_portraits_minutes := 10
  first_look_minutes := 5
  couple_portraits_minutes := 10
  wedding_party_portraits_minutes := 10
  family_portraits_minutes := 10
  reception_events := {
    grand_entrance := false
    first_dance := false
    toasts := false
    dinner := false
    dancefloor_coverage := false
    cake_cutting := false } }

/-- C8: under the data-model precondition that every configured duration is
non-negative, every block of every run satisfies `end ≥ start`, hence
`duration_minutes = end − start ≥ 0`. -/
theorem block_durations_nonneg (inputs : EventInputs) (hVD : ValidDurations inputs) :
    ∀ b ∈ (build_timeline inputs).1,
      b.start ≤ b.«end» ∧ b.duration_minutes = b.«end» - b.start ∧
        0 ≤ b.duration_minutes := by
  have h0 := pre_ceremony_blocks_dur hVD
  have h1 := (ceremony_phase_appends inputs _).1.all h0 (ceremonyP_dur hVD)
  have h2 := (post_ceremony_phase_appends inputs _).all h1 (postP_dur hVD)
  have h3 := (travel_to_reception_phase_appends inputs _).1.all h2 (fun b hp => hp.2)
  have h4 := (cocktail_phase_appends inputs _).all h3 (cocktailP_dur hVD)
  have h5 := (reception_anchor_phase_appends inputs _).all h4 anchorP_dur
  have h6 := (hard_events_phase_appends inputs _).all h5 (hardEventsP_dur hVD)
  have h7 := (dinner_phase_appends inputs _).all h6 (dinnerP_dur hVD)
  have h8 := (dancefloor_phase_appends inputs _).all h7 (dancefloorP_dur hVD)
  have h9 := (golden_hour_phase_appends inputs _).all h8 (goldenP_dur hVD)
  intro b hb
  unfold build_timeline entering_cocktail_state at hb
  rw [finalize_phase_blocks] at hb
  rcases List.mem_append.mp hb with hb | hb
  · have := h9 b hb
    unfold TimelineBlock.duration_minutes
    exact ⟨this, rfl, by omega⟩
  · simp only [List.mem_singleton] at hb
    subst hb
    exact ⟨le_refl _, rfl, by simp [TimelineBlock.duration_minutes]⟩

/-- Witness for C8 on the sample schedule, at its ceremony block. -/
theorem block_durations_nonneg_witness :
    ValidDurations sampleInputs ∧
    ((⟨"Ceremony", 120, 150, "event"⟩ : TimelineBlock).start ≤
        (⟨"Ceremony", 120, 150, "event"⟩ : TimelineBlock).«end» ∧
      (⟨"Ceremony", 120, 150, "event"⟩ : TimelineBlock).duration_minutes =
        (⟨"Ceremony", 120, 150, "event"⟩ : TimelineBlock).«end» - 120 ∧
      0 ≤ (⟨"Ceremony", 120, 150, "event"⟩ : TimelineBlock).duration_minutes) :=
  ⟨by decide,
   block_durations_nonneg sampleInputs (by decide) ⟨"Ceremony", 120, 150, "event"⟩
     (by decide)⟩

/-- The cocktail-hour phase never emits a block named `"Cocktail hour"`
before or after its own; spelling this out for the surrounding phases. -/
theorem filterName_entering_cocktail (inputs : EventInputs) :
    filterName (entering_cocktail_state inputs).blocks "Cocktail hour" = [] := by
  unfold entering_cocktail_state
  rw [(travel_to_reception_phase_appends inputs _).1.filterName_eq
      (fun b hp => by rw [hp.1]; decide),
    (post_ceremony_phase_appends inputs _).filterName_eq
      (fun b hp => ne_of_names (postP_names b hp) (by decide)),
    (ceremony_phase_appends inputs _).1.filterName_eq
      (fun b hp => ne_of_names (ceremonyP_names b hp) (by decide))]
  obtain ⟨tl, he, hp⟩ := pre_ceremony_phase_appends inputs
  rw [he, List.nil_append]
  exact filterName_eq_nil (fun b hb => ne_of_names (preP_names b (hp b hb)) (by decide))

/-- C4: every run emits exactly one cocktail-hour block; its start is
`reception_start − cocktail_hour_minutes` when `reception_start` is given
(so it ends exactly at `reception_start`) and the cursor entering the
cocktail section otherwise; its kind is `"photo"` with a first look and
`"window"` without; and the early-cocktail warning is appended exactly when
the computed start precedes the cursor. -/
theorem cocktail_hour_exactly_once (inputs : EventInputs) :
    filterName (build_timeline inputs).1 "Cocktail hour" =
      [⟨"Cocktail hour", cocktail_start_of inputs (entering_cocktail_state inputs).t,
        add_minutes (cocktail_start_of inputs (entering_cocktail_state inputs).t)
          inputs.cocktail_hour_minutes,
        if inputs.first_look then "photo" else "window"⟩] ∧
    (∀ st : BuildState, (cocktail_phase inputs st).warnings =
      st.warnings ++
        (if cocktail_start_of inputs st.t < st.t then
          [Warning.cocktailStartEarly (cocktail_start_of inputs st.t) st.t]
         else [])) := by
  constructor
  · unfold build_timeline
    rw [finalize_phase_blocks, filterName_append,
      (golden_hour_phase_appends inputs _).filterName_eq
        (fun b hp => by rw [hp.1]; decide),
      (dancefloor_phase_appends inputs _).filterName_eq
        (fun b hp => ne_of_names (dancefloorP_names b hp) (by decide)),
      (dinner_phase_appends inputs _).filterName_eq (fun b hp => by
        rcases hp with ⟨h, -⟩ | ⟨h, -⟩ <;> (rw [h]; decide)),
      (hard_events_phase_appends inputs _).filterName_eq
        (fun b hp => ne_of_names (hardEventsP_names b hp) (by decide)),
      (reception_anchor_phase_appends inputs _).filterName_eq
        (fun b hp => ne_of_names (anchorP_names b hp) (by decide)),
      cocktail_phase_eq]
    have hbuf : filterName
        (_buffer_tail (add_minutes (cocktail_start_of inputs
            (entering_cocktail_state inputs).t) inputs.cocktail_hour_minutes)
          inputs.buffer_minutes) "Cocktail hour" = [] :=
      filterName_eq_nil (fun b hb => by rw [(mem_buffer_tail hb).1]; decide)
    dsimp only
    rw [filterName_append, filterName_append, filterName_entering_cocktail, hbuf,
      List.nil_append, List.append_nil]
    simp [filterName, cocktail_kind]
  · intro st
    rw [cocktail_phase_eq]

/-- C5: for every enabled reception event with a hard-anchored time (the four
`schedule_event_if_toggle` events, and dinner), the emitted block starts
exactly at the anchor, even when the anchor is before the running cursor, and
the backward-jump warning is appended exactly in that case.  Generation
always completes: both sides of each equation are total values. -/
theorem hard_anchor_wins :
    (∀ (inputs : EventInputs) (st : BuildState) (name : String) (w minutes : Int),
      schedule_event_if_toggle inputs st name true (some w) minutes =
        ⟨st.blocks ++ [⟨name, w, add_minutes w minutes, "event"⟩] ++
           _buffer_tail (add_minutes w minutes) inputs.buffer_minutes,
         st.warnings ++
           (if w < st.t then [Warning.eventEarlierThanCursor name w st.t] else []),
         _buffer_t (add_minutes w minutes) inputs.buffer_minutes⟩) ∧
    (∀ (inputs : EventInputs) (st : BuildState) (d : Int),
      inputs.reception_events.dinner = true →
      inputs.reception_events.dinner_start_time = some d →
      dinner_phase inputs st =
        ⟨st.blocks ++ [⟨"Dinner", d,
            add_minutes d inputs.reception_events.dinner_minutes, "event"⟩] ++
           _buffer_tail (add_minutes d inputs.reception_events.dinner_minutes)
             inputs.buffer_minutes,
         st.warnings ++
           (if d < st.t then [Warning.dinnerEarlierThanCursor d st.t] else []),
         _buffer_t (add_minutes d inputs.reception_events.dinner_minutes)
           inputs.buffer_minutes⟩) :=
  ⟨fun inputs st name w minutes => schedule_event_if_toggle_hard_eq inputs st name w minutes,
   fun inputs st d h1 h2 => dinner_phase_hard_eq inputs st d h1 h2⟩

/-- A schedule with dinner hard-anchored at minute 300. -/
def dinnerAnchorInputs : EventInputs := {
  sampleInputs with
  reception_events := {
    grand_entrance := false
    first_dance := false
    toasts := false
    dinner := true
    dinner_start_time := some 300
    dancefloor_coverage := false
    cake_cutting := false } }

/-- Witness for C5: a toast anchored at minute 100 with the cursor at 200
(backward jump, warning recorded, block still at 100), and the anchored
dinner of `dinnerAnchorInputs` from cursor 400. -/
theorem hard_anchor_wins_witness :
    schedule_event_if_toggle dinnerAnchorInputs ⟨[], [], 200⟩ "Toasts" true (some 100) 20 =
      ⟨[] ++ [⟨"Toasts", 100, add_minutes 100 20, "event"⟩] ++
         _buffer_tail (add_minutes 100 20) dinnerAnchorInputs.buffer_minutes,
       [] ++ (if (100 : Int) < 200 then
         [Warning.eventEarlierThanCursor "Toasts" 100 200] else []),
       _buffer_t (add_minutes 100 20) dinnerAnchorInputs.buffer_minutes⟩ ∧
    dinner_phase dinnerAnchorInputs ⟨[], [], 400⟩ =
      ⟨[] ++ [⟨"Dinner", 300,
          add_minutes 300 dinnerAnchorInputs.reception_events.dinner_minutes, "event"⟩] ++
         _buffer_tail (add_minutes 300 dinnerAnchorInputs.reception_events.dinner_minutes)
           dinnerAnchorInputs.buffer_minutes,
       [] ++ (if (300 : Int) < 400 then [Warning.dinnerEarlierThanCursor 300 400] else []),
       _buffer_t (add_minutes 300 dinnerAnchorInputs.reception_events.dinner_minutes)
         dinnerAnchorInputs.buffer_minutes⟩ :=
  ⟨hard_anchor_wins.1 dinnerAnchorInputs ⟨[], [], 200⟩ "Toasts" 100 20,
   hard_anchor_wins.2 dinnerAnchorInputs ⟨[], [], 400⟩ 300 (by decide) (by decide)⟩

/-- C6: with dancefloor coverage enabled, one continuous dancefloor block of
`dancefloor_minutes` is emitted at the cursor; each enabled embedded event is
placed at its hard time if given, else at its default offset (15/45/55), its
start clamped into `[dancefloor_start, dancefloor_end − event_minutes]` (the
clamp being `min (max start ds) (de − m)`, which lies in that interval
whenever `0 ≤ m ≤ dancefloor_minutes`); and the cursor afterwards equals the
dancefloor end. -/
theorem dancefloor_embedding (inputs : EventInputs) (st : BuildState)
    (hdf : inputs.reception_events.dancefloor_coverage = true) :
    (dancefloor_phase inputs st).t =
      add_minutes st.t inputs.reception_events.dancefloor_minutes ∧
    (⟨"Dancefloor coverage", st.t,
        add_minutes st.t inputs.reception_events.dancefloor_minutes, "photo"⟩ :
      TimelineBlock) ∈ (dancefloor_phase inputs st).blocks ∧
    (inputs.reception_events.cake_cutting = true →
      (⟨"Cake cutting",
          embedded_start st.t (add_minutes st.t inputs.reception_events.dancefloor_minutes)
            inputs.reception_events.cake_cutting_time
            inputs.reception_events.cake_cutting_minutes 15,
          add_minutes (embedded_start st.t
            (add_minutes st.t inputs.reception_events.dancefloor_minutes)
            inputs.reception_events.cake_cutting_time
            inputs.reception_events.cake_cutting_minutes 15)
            inputs.reception_events.cake_cutting_minutes, "event"⟩ : TimelineBlock) ∈
        (dancefloor_phase inputs st).blocks) ∧
    (inputs.reception_events.bouquet_toss = true →
      (⟨"Bouquet toss",
          embedded_start st.t (add_minutes st.t inputs.reception_events.dancefloor_minutes)
            inputs.reception_events.bouquet_toss_time
            inputs.reception_events.bouquet_toss_minutes 45,
          add_minutes (embedded_start st.t
            (add_minutes st.t inputs.reception_events.dancefloor_minutes)
            inputs.reception_events.bouquet_toss_time
            inputs.reception_events.bouquet_toss_minutes 45)
            inputs.reception_events.bouquet_toss_minutes, "event"⟩ : TimelineBlock) ∈
        (dancefloor_phase inputs st).blocks) ∧
    (inputs.reception_events.garter_toss = true →
      (⟨"Garter toss",
          embedded_start st.t (add_minutes st.t inputs.reception_events.dancefloor_minutes)
            inputs.reception_events.garter_toss_time
            inputs.reception_events.garter_toss_minutes 55,
          add_minutes (embedded_start st.t
            (add_minutes st.t inputs.reception_events.dancefloor_minutes)
            inputs.reception_events.garter_toss_time
            inputs.reception_events.garter_toss_minutes 55)
            inputs.reception_events.garter_toss_minutes, "event"⟩ : TimelineBlock) ∈
        (dancefloor_phase inputs st).blocks) ∧
    (∀ (w : Option Int) (m off : Int),
      embedded_start st.t (add_minutes st.t inputs.reception_events.dancefloor_minutes)
          w m off =
        min (max (match w with | some x => x | none => st.t + off) st.t)
          (add_minutes st.t inputs.reception_events.dancefloor_minutes - m)) ∧
    (∀ (w : Option Int) (m off : Int), 0 ≤ m →
      m ≤ inputs.reception_events.dancefloor_minutes →
      st.t ≤ embedded_start st.t
          (add_minutes st.t inputs.reception_events.dancefloor_minutes) w m off ∧
        embedded_start st.t
            (add_minutes st.t inputs.reception_events.dancefloor_minutes) w m off + m ≤
          add_minutes st.t inputs.reception_events.dancefloor_minutes) := by
  have hblocks : (dancefloor_phase inputs st).blocks =
      place_embedded_event
        (place_embedded_event
          (place_embedded_event
            (_add_block st.blocks "Dancefloor coverage" st.t
              inputs.reception_events.dancefloor_minutes "photo").1
            st.t (add_minutes st.t inputs.reception_events.dancefloor_minutes)
            "Cake cutting" inputs.reception_events.cake_cutting
            inputs.reception_events.cake_cutting_time
            inputs.reception_events.cake_cutting_minutes 15)
          st.t (add_minutes st.t inputs.reception_events.dancefloor_minutes)
          "Bouquet toss" inputs.reception_events.bouquet_toss
          inputs.reception_events.bouquet_toss_time
          inputs.reception_events.bouquet_toss_minutes 45)
        st.t (add_minutes st.t inputs.reception_events.dancefloor_minutes)
        "Garter toss" inputs.reception_events.garter_toss
        inputs.reception_events.garter_toss_time
        inputs.reception_events.garter_toss_minutes 55 := by
    simp only [dancefloor_phase, hdf, if_true]
  have ht : (dancefloor_phase inputs st).t =
      add_minutes st.t inputs.reception_events.dancefloor_minutes := by
    simp only [dancefloor_phase, hdf, if_true]
  have m3 : ∀ b : TimelineBlock,
      b ∈ place_embedded_event
        (place_embedded_event
          (_add_block st.blocks "Dancefloor coverage" st.t
            inputs.reception_events.dancefloor_minutes "photo").1
          st.t (add_minutes st.t inputs.reception_events.dancefloor_minutes)
          "Cake cutting" inputs.reception_events.cake_cutting
          inputs.reception_events.cake_cutting_time
          inputs.reception_events.cake_cutting_minutes 15)
        st.t (add_minutes st.t inputs.reception_events.dancefloor_minutes)
        "Bouquet toss" inputs.reception_events.bouquet_toss
        inputs.reception_events.bouquet_toss_time
        inputs.reception_events.bouquet_toss_minutes 45 →
      b ∈ (dancefloor_phase inputs st).blocks := by
    intro b hb
    rw [hblocks]
    exact (place_embedded_event_appends ..).mem_mono hb
  have m2 : ∀ b : TimelineBlock,
      b ∈ place_embedded_event
        (_add_block st.blocks "Dancefloor coverage" st.t
          inputs.reception_events.dancefloor_minutes "photo").1
        st.t (add_minutes st.t inputs.reception_events.dancefloor_minutes)
        "Cake cutting" inputs.reception_events.cake_cutting
        inputs.reception_events.cake_cutting_time
        inputs.reception_events.cake_cutting_minutes 15 →
      b ∈ (dancefloor_phase inputs st).blocks := by
    intro b hb
    exact m3 b ((place_embedded_event_appends ..).mem_mono hb)
  have m1 : ∀ b : TimelineBlock,
      b ∈ (_add_block st.blocks "Dancefloor coverage" st.t
        inputs.reception_events.dancefloor_minutes "photo").1 →
      b ∈ (dancefloor_phase inputs st).blocks := by
    intro b hb
    exact m2 b ((place_embedded_event_appends ..).mem_mono hb)
  refine ⟨ht, m1 _ (by simp [_add_block]), ?_, ?_, ?_, ?_, ?_⟩
  · intro hc
    refine m2 _ ?_
    rw [hc, place_embedded_event_eq]
    simp
  · intro hc
    refine m3 _ ?_
    rw [hc, place_embedded_event_eq]
    simp
  · intro hc
    rw [hblocks, hc, place_embedded_event_eq]
    simp
  · intro w m off
    rw [embedded_start_eq_clamp]
  · intro w m off h1 h2
    have := embedded_start_mem st.t
      (add_minutes st.t inputs.reception_events.dancefloor_minutes) w m off
      (by simp only [add_minutes]; omega)
    simp only [add_minutes] at this ⊢
    omega

/-- Witness for C6 on a dancefloor schedule: all three embedded events
enabled, cake at its hard time. -/
def dancefloorInputs : EventInputs := {
  sampleInputs with
  reception_events := {
    grand_entrance := false
    first_dance := false
    toasts := false
    dinner := false
    dancefloor_coverage := true
    dancefloor_minutes := 90
    cake_cutting := true
    cake_cutting_time := some 250
    bouquet_toss := true
    garter_toss := true } }

theorem dancefloor_embedding_witness :
    (dancefloor_phase dancefloorInputs ⟨[], [], 240⟩).t =
      add_minutes 240 dancefloorInputs.reception_events.dancefloor_minutes ∧
    (⟨"Dancefloor coverage", 240,
        add_minutes 240 dancefloorInputs.reception_events.dancefloor_minutes, "photo"⟩ :
      TimelineBlock) ∈ (dancefloor_phase dancefloorInputs ⟨[], [], 240⟩).blocks :=
  ⟨(dancefloor_embedding dancefloorInputs ⟨[], [], 240⟩ (by decide)).1,
   (dancefloor_embedding dancefloorInputs ⟨[], [], 240⟩ (by decide)).2.1⟩

/-- Deleting blocks of kind `"coverage"`: the sentinel filter of claim C7. -/
def noncoverage (b : TimelineBlock) : Bool := decide (¬b.kind = "coverage")

theorem filter_incl_noncoverage (l : List TimelineBlock) :
    (l.filter noncoverage).filter analytics_included = l.filter analytics_included := by
  rw [List.filter_filter]
  refine List.filter_congr ?_
  intro b _
  by_cases h : b.kind = "coverage" <;>
    simp [analytics_included, noncoverage, h]

theorem dancefloor_intervals_filter (blocks : List TimelineBlock)
    (H : ∀ b ∈ blocks, b.kind = "coverage" →
      str_startswith b.name "Dancefloor coverage" = false) :
    _dancefloor_intervals (blocks.filter noncoverage) = _dancefloor_intervals blocks := by
  unfold _dancefloor_intervals
  rw [List.filter_filter]
  congr 1
  refine List.filter_congr ?_
  intro b hb
  by_cases h : b.kind = "coverage"
  · simp [noncoverage, h, H b hb h]
  · simp [noncoverage, h]

theorem filterMap_filter_of_none {α β : Type} (f : α → Option β) (p : α → Bool)
    (l : List α) (h : ∀ a ∈ l, p a = false → f a = none) :
    (l.filter p).filterMap f = l.filterMap f := by
  induction l with
  | nil => rfl
  | cons a l ih =>
    have ih' := ih (fun a ha => h a (List.mem_cons_of_mem _ ha))
    cases hp : p a with
    | true => simp [List.filter_cons, hp, List.filterMap_cons, ih']
    | false =>
      simp [List.filter_cons, hp, List.filterMap_cons,
        h a (List.mem_cons_self a l) hp, ih']

theorem allocation_rows_filter (blocks : List TimelineBlock) (cs ce : Int)
    (H : ∀ b ∈ blocks, b.kind = "coverage" →
      str_startswith b.name "Dancefloor coverage" = false) :
    coverage_allocation_rows (blocks.filter noncoverage) cs ce =
      coverage_allocation_rows blocks cs ce := by
  unfold coverage_allocation_rows
  rw [dancefloor_intervals_filter blocks H]
  refine filterMap_filter_of_none _ _ _ ?_
  intro b _ hf
  have hk : b.kind = "coverage" := by
    unfold noncoverage at hf
    simpa using hf
  unfold _allocation_row
  rw [if_pos (Or.inl hk)]

theorem top_rows_filter (blocks : List TimelineBlock) (cs ce : Int)
    (H : ∀ b ∈ blocks, b.kind = "coverage" →
      str_startswith b.name "Dancefloor coverage" = false) :
    (blocks.filter noncoverage).filterMap
        (_top_block_row (_dancefloor_intervals (blocks.filter noncoverage)) cs ce) =
      blocks.filterMap (_top_block_row (_dancefloor_intervals blocks) cs ce) := by
  rw [dancefloor_intervals_filter blocks H]
  refine filterMap_filter_of_none _ _ _ ?_
  intro b _ hf
  have hk : b.kind = "coverage" := by
    unfold noncoverage at hf
    simpa using hf
  unfold _top_block_row
  rw [if_pos (Or.inl hk)]

/-- C7: the last block of every run is the zero-duration `"Coverage ends"`
sentinel at `coverage_end` with kind `"coverage"`, and each of the three
analytics functions is unchanged by deleting the blocks of kind
`"coverage"` (for the two row-based breakdowns, under the sanity condition
that no coverage-kind block is named like a dancefloor block — the engine's
only coverage-kind block is the sentinel, which is not). -/
theorem sentinel_last_and_excluded :
    (∀ inputs : EventInputs, (build_timeline inputs).1.getLast? =
      some ⟨"Coverage ends", inputs.coverage_end, inputs.coverage_end, "coverage"⟩) ∧
    (∀ (blocks : List TimelineBlock) (cs ce : Int),
      coverage_totals (blocks.filter noncoverage) cs ce = coverage_totals blocks cs ce) ∧
    (∀ (blocks : List TimelineBlock) (cs ce : Int) (k : String),
      (∀ b ∈ blocks, b.kind = "coverage" →
        str_startswith b.name "Dancefloor coverage" = false) →
      coverage_allocation_by_kind (blocks.filter noncoverage) cs ce k =
        coverage_allocation_by_kind blocks cs ce k) ∧
    (∀ (blocks : List TimelineBlock) (cs ce : Int) (top_n : Nat),
      (∀ b ∈ blocks, b.kind = "coverage" →
        str_startswith b.name "Dancefloor coverage" = false) →
      coverage_allocation_top_blocks (blocks.filter noncoverage) cs ce top_n =
        coverage_allocation_top_blocks blocks cs ce top_n) := by
  refine ⟨?_, ?_, ?_, ?_⟩
  · intro inputs
    unfold build_timeline
    rw [finalize_phase_blocks]
    exact List.getLast?_concat _
  · intro blocks cs ce
    unfold coverage_totals
    rw [coverage_totals_foldl, coverage_totals_foldl]
    unfold in_coverage_minutes_spec scheduled_minutes_spec latest_end_spec
    rw [filter_incl_noncoverage]
  · intro blocks cs ce k H
    unfold coverage_allocation_by_kind
    rw [allocation_rows_filter blocks cs ce H]
  · intro blocks cs ce top_n H
    unfold coverage_allocation_top_blocks
    rw [top_rows_filter blocks cs ce H]

/-- Witness for C7: the sentinel of the sample run, and the filter
invariances on the C2 block list inside the window `[0, 480]`. -/
theorem sentinel_last_and_excluded_witness :
    (build_timeline sampleInputs).1.getLast? =
      some ⟨"Coverage ends", sampleInputs.coverage_end, sampleInputs.coverage_end,
        "coverage"⟩ ∧
    coverage_totals ((c2_blocks 60).filter noncoverage) 0 480 =
      coverage_totals (c2_blocks 60) 0 480 ∧
    coverage_allocation_by_kind ((c2_blocks 60).filter noncoverage) 0 480 "event" =
      coverage_allocation_by_kind (c2_blocks 60) 0 480 "event" ∧
    coverage_allocation_top_blocks ((c2_blocks 60).filter noncoverage) 0 480 8 =
      coverage_allocation_top_blocks (c2_blocks 60) 0 480 8 :=
  ⟨sentinel_last_and_excluded.1 sampleInputs,
   sentinel_last_and_excluded.2.1 (c2_blocks 60) 0 480,
   sentinel_last_and_excluded.2.2.1 (c2_blocks 60) 0 480 "event" (by decide),
   sentinel_last_and_excluded.2.2.2 (c2_blocks 60) 0 480 8 (by decide)⟩

/-- Membership in the block list entering the cocktail phase survives to the
final output. -/
theorem build_timeline_mem (inputs : EventInputs) {b : TimelineBlock}
    (hb : b ∈ (entering_cocktail_state inputs).blocks) :
    b ∈ (build_timeline inputs).1 := by
  unfold build_timeline
  rw [finalize_phase_blocks]
  refine List.mem_append_left _ ?_
  exact (golden_hour_phase_appends inputs _).mem_mono
    ((dancefloor_phase_appends inputs _).mem_mono
      ((dinner_phase_appends inputs _).mem_mono
        ((hard_events_phase_appends inputs _).mem_mono
          ((reception_anchor_phase_appends inputs _).mem_mono
            ((cocktail_phase_appends inputs _).mem_mono hb)))))

/-- Membership in the pre-ceremony block list survives to the state entering
the cocktail phase. -/
theorem entering_mem (inputs : EventInputs) {b : TimelineBlock}
    (hb : b ∈ (pre_ceremony_phase inputs).blocks) :
    b ∈ (entering_cocktail_state inputs).blocks := by
  unfold entering_cocktail_state
  exact (travel_to_reception_phase_appends inputs _).1.mem_mono
    ((post_ceremony_phase_appends inputs _).mem_mono
      ((ceremony_phase_appends inputs _).1.mem_mono hb))

/-- Membership in the prep-step block list survives to the end of the
pre-ceremony phase. -/
theorem pre_mem_of_prep (inputs : EventInputs) {b : TimelineBlock}
    (hb : b ∈ (prep_steps inputs
      (arrival_step inputs ⟨[], [], inputs.coverage_start⟩)).blocks) :
    b ∈ (pre_ceremony_phase inputs).blocks := by
  unfold pre_ceremony_phase
  rw [pre_ceremony_overrun_check_blocks]
  exact (tuckaway_steps_appends inputs _).mem_mono
    ((first_look_steps_appends inputs _).1.mem_mono hb)

/-- The three unconditional prep blocks, with their configured durations. -/
theorem prep_steps_has (inputs : EventInputs) (st : BuildState) :
    (∃ b ∈ (prep_steps inputs st).blocks,
      b.name = "Flat lay & details" ∧ b.«end» = b.start + inputs.flatlay_details_minutes) ∧
    (∃ b ∈ (prep_steps inputs st).blocks,
      b.name = "Getting dressed" ∧ b.«end» = b.start + inputs.getting_dressed_minutes) ∧
    (∃ b ∈ (prep_steps inputs st).blocks,
      b.name = "Individual portraits" ∧
        b.«end» = b.start + inputs.individual_portraits_minutes) := by
  unfold prep_steps _add_block _add_buffer _add_travel
  dsimp only
  refine ⟨⟨⟨"Flat lay & details", st.t,
      add_minutes st.t inputs.flatlay_details_minutes, "photo"⟩, by simp, rfl, rfl⟩,
    ⟨⟨"Getting dressed", _buffer_t (add_minutes st.t inputs.flatlay_details_minutes)
        inputs.buffer_minutes,
      add_minutes (_buffer_t (add_minutes st.t inputs.flatlay_details_minutes)
        inputs.buffer_minutes) inputs.getting_dressed_minutes, "photo"⟩,
      by simp, rfl, rfl⟩,
    ⟨⟨"Individual portraits",
      _buffer_t (add_minutes (_buffer_t (add_minutes st.t inputs.flatlay_details_minutes)
        inputs.buffer_minutes) inputs.getting_dressed_minutes) inputs.buffer_minutes,
      add_minutes (_buffer_t (add_minutes (_buffer_t
        (add_minutes st.t inputs.flatlay_details_minutes) inputs.buffer_minutes)
        inputs.getting_dressed_minutes) inputs.buffer_minutes)
        inputs.individual_portraits_minutes, "photo"⟩,
      by simp, rfl, rfl⟩⟩

/-- The ceremony block is always emitted. -/
theorem ceremony_phase_has (inputs : EventInputs) (st : BuildState) :
    (⟨"Ceremony", inputs.ceremony_start,
        add_minutes inputs.ceremony_start inputs.ceremony_minutes, "event"⟩ :
      TimelineBlock) ∈ (ceremony_phase inputs st).blocks := by
  unfold ceremony_phase _add_block _add_buffer
  split_ifs <;> simp

/-- C9: degenerate configurations are not errors.  Non-positive buffer,
travel and gap minutes emit nothing and leave the cursor unchanged, while
the unconditional photo/event steps still appear as zero-duration blocks
when their configured minutes are zero; the run always returns a full
`(blocks, warnings)` pair (totality is inherent in the model). -/
theorem degenerate_config_ok :
    (∀ (blocks : List TimelineBlock) (t m : Int), m ≤ 0 →
      _add_buffer blocks t m = (blocks, t)) ∧
    (∀ (blocks : List TimelineBlock) (t m : Int) (s : String), m ≤ 0 →
      _add_travel blocks t m s = (blocks, t)) ∧
    (∀ (blocks : List TimelineBlock) (t m : Int), m ≤ 0 →
      _add_gap_to_cocktail_hour blocks t m = (blocks, t)) ∧
    (∀ inputs : EventInputs,
      (inputs.flatlay_details_minutes = 0 → ∃ b ∈ (build_timeline inputs).1,
        b.name = "Flat lay & details" ∧ b.start = b.«end») ∧
      (inputs.getting_dressed_minutes = 0 → ∃ b ∈ (build_timeline inputs).1,
        b.name = "Getting dressed" ∧ b.start = b.«end») ∧
      (inputs.individual_portraits_minutes = 0 → ∃ b ∈ (build_timeline inputs).1,
        b.name = "Individual portraits" ∧ b.start = b.«end») ∧
      (inputs.ceremony_minutes = 0 → ∃ b ∈ (build_timeline inputs).1,
        b.name = "Ceremony" ∧ b.start = b.«end») ∧
      (inputs.cocktail_hour_minutes = 0 → ∃ b ∈ (build_timeline inputs).1,
        b.name = "Cocktail hour" ∧ b.start = b.«end»)) := by
  refine ⟨?_, ?_, ?_, ?_⟩
  · intro blocks t m hm
    simp [_add_buffer, _buffer_tail, _buffer_t, hm]
  · intro blocks t m s hm
    simp [_add_travel, _travel_tail, _travel_t, hm]
  · intro blocks t m hm
    simp [_add_gap_to_cocktail_hour, _gap_tail, _gap_t, hm]
  intro inputs
  obtain ⟨⟨b1, hb1, hn1, hd1⟩, ⟨b2, hb2, hn2, hd2⟩, ⟨b3, hb3, hn3, hd3⟩⟩ :=
    prep_steps_has inputs (arrival_step inputs ⟨[], [], inputs.coverage_start⟩)
  refine ⟨?_, ?_, ?_, ?_, ?_⟩
  · intro h0
    exact ⟨b1, build_timeline_mem inputs (entering_mem inputs (pre_mem_of_prep inputs hb1)),
      hn1, by omega⟩
  · intro h0
    exact ⟨b2, build_timeline_mem inputs (entering_mem inputs (pre_mem_of_prep inputs hb2)),
      hn2, by omega⟩
  · intro h0
    exact ⟨b3, build_timeline_mem inputs (entering_mem inputs (pre_mem_of_prep inputs hb3)),
      hn3, by omega⟩
  · intro h0
    refine ⟨⟨"Ceremony", inputs.ceremony_start,
        add_minutes inputs.ceremony_start inputs.ceremony_minutes, "event"⟩, ?_, rfl, ?_⟩
    · refine build_timeline_mem inputs ?_
      unfold entering_cocktail_state
      exact (travel_to_reception_phase_appends inputs _).1.mem_mono
        ((post_ceremony_phase_appends inputs _).mem_mono (ceremony_phase_has inputs _))
    · simp [add_minutes, h0]
  · intro h0
    refine ⟨⟨"Cocktail hour",
        cocktail_start_of inputs (entering_cocktail_state inputs).t,
        add_minutes (cocktail_start_of inputs (entering_cocktail_state inputs).t)
          inputs.cocktail_hour_minutes, cocktail_kind inputs⟩, ?_, rfl, ?_⟩
    · unfold build_timeline
      rw [finalize_phase_blocks]
      refine List.mem_append_left _ ?_
      refine (golden_hour_phase_appends inputs _).mem_mono
        ((dancefloor_phase_appends inputs _).mem_mono
          ((dinner_phase_appends inputs _).mem_mono
            ((hard_events_phase_appends inputs _).mem_mono
              ((reception_anchor_phase_appends inputs _).mem_mono ?_))))
      rw [cocktail_phase_eq]
      simp
    · simp [add_minutes, h0]

/-- Witness for C9: the zero-minute buffer is skipped, and the sample
schedule with zero flat-lay minutes still contains the zero-duration
flat-lay block. -/
theorem degenerate_config_ok_witness :
    _add_buffer [] 37 0 = ([], 37) ∧
    (∃ b ∈ (build_timeline { sampleInputs with flatlay_details_minutes := 0 }).1,
      b.name = "Flat lay & details" ∧ b.start = b.«end») :=
  ⟨degenerate_config_ok.1 [] 37 0 (by decide),
   (degenerate_config_ok.2.2.2 { sampleInputs with flatlay_details_minutes := 0 }).1
     (by decide)⟩

/-- Discriminator for the past-coverage-end warning. -/
def Warning.isPastCoverage : Warning → Bool
  | .pastCoverageEnd _ => true
  | _ => false

/-- The sample schedule with a 30-minute golden-hour window and no sunset. -/
def goldenBaseInputs : EventInputs := { sampleInputs with golden_hour_window_minutes := 30 }

/-- The same schedule with a sunset at minute 620: golden hour runs
`[590, 620]`, past the coverage end 600. -/
def goldenSunInputs : EventInputs := { goldenBaseInputs with sunset_time := some 620 }

/-- C10: the golden-hour block (30 minutes before sunset, lasting the
configured window, kind `"photo"`) never advances the cursor or warns by
itself, but it does feed the final latest-block-end check and the coverage
analytics: on the concrete schedule above, adding a late sunset alone
produces the past-coverage-end warning (20 minutes over) and adds 10
in-coverage minutes to the `"photo"` row of the by-kind breakdown. -/
theorem golden_hour_not_cursor_but_counted :
    (∀ (inputs : EventInputs) (st : BuildState),
      (golden_hour_phase inputs st).t = st.t ∧
      (golden_hour_phase inputs st).warnings = st.warnings) ∧
    (∀ (inputs : EventInputs) (st : BuildState) (s : Int),
      inputs.sunset_time = some s →
      (⟨"Golden hour portraits", add_minutes s (-30),
          add_minutes (add_minutes s (-30)) inputs.golden_hour_window_minutes,
          "photo"⟩ : TimelineBlock) ∈ (golden_hour_phase inputs st).blocks) ∧
    Warning.pastCoverageEnd 20 ∈ (build_timeline goldenSunInputs).2 ∧
    (build_timeline goldenBaseInputs).2.all (fun w => !w.isPastCoverage) = true ∧
    coverage_allocation_by_kind (build_timeline goldenSunInputs).1 0 600 "photo" =
      coverage_allocation_by_kind (build_timeline goldenBaseInputs).1 0 600 "photo"
        + 10 := by
  refine ⟨golden_hour_phase_state, golden_hour_phase_mem, ?_, ?_, ?_⟩
  · decide
  · decide
  · decide

/-- Every block emitted by the arrival step ends at or before its resulting
cursor. -/
theorem arrival_step_inv (inputs : EventInputs) (st : BuildState)
    (h : ∀ b ∈ st.blocks, b.«end» ≤ st.t) :
    ∀ b ∈ (arrival_step inputs st).blocks, b.«end» ≤ (arrival_step inputs st).t := by
  obtain ⟨tl, he, -, hmono, hP⟩ := arrival_step_tail inputs st
  intro b hb
  rw [he] at hb
  rcases List.mem_append.mp hb with hb | hb
  · exact le_trans (h b hb) hmono
  · exact (hP b hb).2.2

/-- The prep steps keep every block end at or before the cursor. -/
theorem prep_steps_inv (inputs : EventInputs) (st : BuildState)
    (hVD : ValidDurations inputs) (h : ∀ b ∈ st.blocks, b.«end» ≤ st.t) :
    ∀ b ∈ (prep_steps inputs st).blocks, b.«end» ≤ (prep_steps inputs st).t := by
  obtain ⟨h1, h2, h3, -⟩ := hVD
  exact _add_buffer_inv (_add_travel_inv (_add_buffer_inv (_add_block_inv h3
    (_add_buffer_inv (_add_block_inv h2 (_add_buffer_inv (_add_block_inv h1 h)))))))

/-- The first-look branch keeps every block end at or before the cursor. -/
theorem first_look_steps_inv (inputs : EventInputs) (st : BuildState)
    (hVD : ValidDurations inputs) (h : ∀ b ∈ st.blocks, b.«end» ≤ st.t) :
    ∀ b ∈ (first_look_steps inputs st).blocks,
      b.«end» ≤ (first_look_steps inputs st).t := by
  have hfam := _family_minutes_nonneg hVD
  obtain ⟨-, -, -, h4, h5, h6, -⟩ := hVD
  cases hfl : inputs.first_look with
  | false => rw [first_look_steps_id inputs st hfl]; exact h
  | true =>
    unfold first_look_steps
    rw [if_pos hfl]
    exact _add_buffer_inv (_add_block_inv hfam (_add_buffer_inv (_add_block_inv h6
      (_add_buffer_inv (_add_block_inv h5 (_add_buffer_inv (_add_block_inv h4 h)))))))

/-- The tuckaway section keeps every block end at or before the cursor. -/
theorem tuckaway_steps_inv (inputs : EventInputs) (st : BuildState)
    (h : ∀ b ∈ st.blocks, b.«end» ≤ st.t) :
    ∀ b ∈ (tuckaway_steps inputs st).blocks, b.«end» ≤ (tuckaway_steps inputs st).t := by
  unfold tuckaway_steps _add_block
  simp only [add_minutes, minutes_between]
  split_ifs with h1 h2 h3 h4 h5
  · intro b hb
    simp only [List.mem_append, List.mem_singleton] at hb
    rcases hb with (hb | rfl) | rfl
    · have := h b hb
      simp only
      omega
    · simp only
      omega
    · simp only
      omega
  · intro b hb
    simp only [List.mem_append, List.mem_singleton] at hb
    rcases hb with hb | rfl
    · have := h b hb
      simp only
      omega
    · simp only
      omega
  · intro b hb
    simp only [List.mem_append, List.mem_singleton] at hb
    rcases hb with hb | rfl
    · have := h b hb
      simp only
      omega
    · simp only
      omega
  · exact h
  · exact h
  · exact h

/-- Every pre-ceremony block ends at or before the pre-ceremony cursor. -/
theorem pre_ceremony_blocks_end_le (inputs : EventInputs) (hVD : ValidDurations inputs) :
    ∀ b ∈ (pre_ceremony_phase inputs).blocks, b.«end» ≤ (pre_ceremony_phase inputs).t := by
  unfold pre_ceremony_phase
  rw [pre_ceremony_overrun_check_blocks, pre_ceremony_overrun_check_t]
  exact tuckaway_steps_inv inputs _
    (first_look_steps_inv inputs _ hVD
      (prep_steps_inv inputs _ hVD
        (arrival_step_inv inputs _ (by simp))))

/-- The cursor leaving the ceremony phase is at or after the ceremony end. -/
theorem ceremony_phase_t_ge (inputs : EventInputs) (st : BuildState)
    (hVD : ValidDurations inputs) :
    inputs.ceremony_start + inputs.ceremony_minutes ≤ (ceremony_phase inputs st).t := by
  obtain ⟨-, -, -, -, -, -, -, -, -, h10, -⟩ := hVD
  unfold ceremony_phase _add_block
  split_ifs with hrl
  · dsimp only
    have g1 := _buffer_t_ge
      (add_minutes (add_minutes inputs.ceremony_start inputs.ceremony_minutes)
        inputs.receiving_line_minutes) inputs.buffer_minutes
    have g2 := _buffer_t_ge
      (_buffer_t (add_minutes (add_minutes inputs.ceremony_start inputs.ceremony_minutes)
        inputs.receiving_line_minutes) inputs.buffer_minutes) inputs.buffer_minutes
    simp only [add_minutes, _add_buffer] at g1 g2 ⊢
    omega
  · dsimp only
    have g1 := _buffer_t_ge (add_minutes inputs.ceremony_start inputs.ceremony_minutes)
      inputs.buffer_minutes
    simp only [add_minutes, _add_buffer] at g1 ⊢
    omega

/-- Witness for C10 at the concrete sunset schedule. -/
theorem golden_hour_not_cursor_but_counted_witness :
    (golden_hour_phase goldenSunInputs ⟨[], [], 0⟩).t = 0 ∧
    (⟨"Golden hour portraits", add_minutes 620 (-30),
        add_minutes (add_minutes 620 (-30)) goldenSunInputs.golden_hour_window_minutes,
        "photo"⟩ : TimelineBlock) ∈
      (golden_hour_phase goldenSunInputs ⟨[], [], 0⟩).blocks :=
  ⟨(golden_hour_not_cursor_but_counted.1 goldenSunInputs ⟨[], [], 0⟩).1,
   golden_hour_not_cursor_but_counted.2.1 goldenSunInputs ⟨[], [], 0⟩ 620 (by decide)⟩

/-- The seventeen block names the phases after the portraits can emit, as a
list. -/
theorem or17_names (b : TimelineBlock)
    (h : b.name = "Travel: Ceremony → Reception" ∨ b.name = "Cocktail hour" ∨
     b.name = "Buffer/transition" ∨ b.name = "Gap before cocktail hour" ∨
     b.name = "Reception start" ∨ b.name = "Reception details (before guests enter)" ∨
     b.name = "Grand entrance" ∨ b.name = "First dance" ∨ b.name = "Parent dances" ∨
     b.name = "Toasts" ∨ b.name = "Dinner" ∨ b.name = "Dancefloor coverage" ∨
     b.name = "Cake cutting" ∨ b.name = "Bouquet toss" ∨ b.name = "Garter toss" ∨
     b.name = "Golden hour portraits" ∨ b.name = "Coverage ends") :
    b.name ∈ ["Travel: Ceremony → Reception", "Cocktail hour", "Buffer/transition",
      "Gap before cocktail hour", "Reception start",
      "Reception details (before guests enter)", "Grand entrance", "First dance",
      "Parent dances", "Toasts", "Dinner", "Dancefloor coverage", "Cake cutting",
      "Bouquet toss", "Garter toss", "Golden hour portraits", "Coverage ends"] := by
  rcases h with h|h|h|h|h|h|h|h|h|h|h|h|h|h|h|h|h <;> simp [h]

/-- A block whose name sits in a list avoiding the three portrait names is
not one of the portrait blocks. -/
theorem not_portrait_of_mem {l : List String} (b : TimelineBlock)
    (h : b.name ∈ l)
    (hA : "Couple portraits" ∉ l) (hB : "Wedding party portraits" ∉ l)
    (hC : "Family portraits" ∉ l) :
    ¬(b.name = "Couple portraits" ∨ b.name = "Wedding party portraits" ∨
      b.name = "Family portraits") := by
  rintro (hn | hn | hn)
  · exact hA (hn ▸ h)
  · exact hB (hn ▸ h)
  · exact hC (hn ▸ h)

/-- Any predicate holding of all blocks after the post-ceremony branch, and
of all blocks the later phases can name, holds of the whole output. -/
theorem build_timeline_all {Q : TimelineBlock → Prop} (inputs : EventInputs)
    (h : ∀ b ∈ (post_ceremony_phase inputs
      (ceremony_phase inputs (pre_ceremony_phase inputs))).blocks, Q b)
    (hQ : ∀ b : TimelineBlock,
      (b.name = "Travel: Ceremony → Reception" ∨ b.name = "Cocktail hour" ∨
       b.name = "Buffer/transition" ∨ b.name = "Gap before cocktail hour" ∨
       b.name = "Reception start" ∨ b.name = "Reception details (before guests enter)" ∨
       b.name = "Grand entrance" ∨ b.name = "First dance" ∨ b.name = "Parent dances" ∨
       b.name = "Toasts" ∨ b.name = "Dinner" ∨ b.name = "Dancefloor coverage" ∨
       b.name = "Cake cutting" ∨ b.name = "Bouquet toss" ∨ b.name = "Garter toss" ∨
       b.name = "Golden hour portraits" ∨ b.name = "Coverage ends") → Q b) :
    ∀ b ∈ (build_timeline inputs).1, Q b := by
  unfold build_timeline entering_cocktail_state
  exact later_phases_all inputs _ h hQ

/-- Membership after the post-ceremony branch survives into the state
entering the cocktail phase. -/
theorem entering_mem_of_post (inputs : EventInputs) {b : TimelineBlock}
    (hb : b ∈ (post_ceremony_phase inputs
      (ceremony_phase inputs (pre_ceremony_phase inputs))).blocks) :
    b ∈ (entering_cocktail_state inputs).blocks := by
  unfold entering_cocktail_state
  exact (travel_to_reception_phase_appends inputs _).1.mem_mono hb

/-- Membership in the first-look block list survives to the end of the
pre-ceremony phase. -/
theorem pre_mem_of_first_look (inputs : EventInputs) {b : TimelineBlock}
    (hb : b ∈ (first_look_steps inputs (prep_steps inputs
      (arrival_step inputs ⟨[], [], inputs.coverage_start⟩))).blocks) :
    b ∈ (pre_ceremony_phase inputs).blocks := by
  unfold pre_ceremony_phase
  rw [pre_ceremony_overrun_check_blocks]
  exact (tuckaway_steps_appends inputs _).mem_mono hb

/-- The block shapes the pre-ceremony section can append when no first look
was requested: arrival, prep and tuckaway blocks only. -/
def preNoFlP (inputs : EventInputs) (b : TimelineBlock) : Prop :=
  ((b.name = "Photographer arrival" ∨ b.name = "Arrival/Gear setup") ∧
    b.start ≤ b.«end») ∨
  prepP inputs b ∨ tuckawayP b

/-- Without a first look the pre-ceremony phase appends only arrival, prep
and tuckaway blocks. -/
theorem pre_ceremony_phase_appends_nofl (inputs : EventInputs)
    (h : inputs.first_look = false) :
    AppendsP [] (pre_ceremony_phase inputs).blocks (preNoFlP inputs) := by
  unfold pre_ceremony_phase
  rw [show ∀ st, (pre_ceremony_overrun_check inputs st).blocks = st.blocks from
    fun st => pre_ceremony_overrun_check_blocks inputs st]
  rw [first_look_steps_id inputs _ h]
  refine AppendsP.trans
    ((arrival_step_appends inputs ⟨[], [], inputs.coverage_start⟩).mono
      fun b hp => Or.inl hp) ?_
  refine AppendsP.trans
    (((prep_steps_appends inputs
        (arrival_step inputs ⟨[], [], inputs.coverage_start⟩)).1).mono
      fun b hp => Or.inr (Or.inl hp)) ?_
  exact (tuckaway_steps_appends inputs
      (prep_steps inputs (arrival_step inputs ⟨[], [], inputs.coverage_start⟩))).mono
    fun b hp => Or.inr (Or.inr hp)

/-- No block of the first-look-free pre-ceremony section is one of the three
portrait blocks. -/
theorem preNoFlP_not_portrait (inputs : EventInputs) (b : TimelineBlock)
    (hp : preNoFlP inputs b) :
    ¬(b.name = "Couple portraits" ∨ b.name = "Wedding party portraits" ∨
      b.name = "Family portraits") := by
  rcases hp with ⟨h, -⟩ | hp | hp
  · exact not_portrait_of_mem b
      (show b.name ∈ ["Photographer arrival", "Arrival/Gear setup"] by
        rcases h with h | h <;> simp [h])
      (by decide) (by decide) (by decide)
  · exact not_portrait_of_mem b (prepP_names b hp) (by decide) (by decide) (by decide)
  · exact not_portrait_of_mem b (tuckawayP_names b hp) (by decide) (by decide) (by decide)

/-- With a first look, the first-look branch emits the three portrait
blocks. -/
theorem first_look_steps_has (inputs : EventInputs) (st : BuildState)
    (h : inputs.first_look = true) :
    (∃ b ∈ (first_look_steps inputs st).blocks, b.name = "Couple portraits") ∧
    (∃ b ∈ (first_look_steps inputs st).blocks, b.name = "Wedding party portraits") ∧
    (∃ b ∈ (first_look_steps inputs st).blocks, b.name = "Family portraits") := by
  unfold first_look_steps
  rw [if_pos h]
  unfold _add_block _add_buffer
  dsimp only
  refine ⟨⟨⟨"Couple portraits",
      _buffer_t (add_minutes st.t inputs.first_look_minutes) inputs.buffer_minutes,
      add_minutes (_buffer_t (add_minutes st.t inputs.first_look_minutes)
        inputs.buffer_minutes) inputs.couple_portraits_minutes, "photo"⟩,
    by simp, rfl⟩,
    ⟨⟨"Wedding party portraits",
      _buffer_t (add_minutes (_buffer_t (add_minutes st.t inputs.first_look_minutes)
        inputs.buffer_minutes) inputs.couple_portraits_minutes) inputs.buffer_minutes,
      add_minutes (_buffer_t (add_minutes (_buffer_t
        (add_minutes st.t inputs.first_look_minutes) inputs.buffer_minutes)
        inputs.couple_portraits_minutes) inputs.buffer_minutes)
        inputs.wedding_party_portraits_minutes, "photo"⟩,
    by simp, rfl⟩,
    ⟨⟨"Family portraits",
      _buffer_t (add_minutes (_buffer_t (add_minutes (_buffer_t
        (add_minutes st.t inputs.first_look_minutes) inputs.buffer_minutes)
        inputs.couple_portraits_minutes) inputs.buffer_minutes)
        inputs.wedding_party_portraits_minutes) inputs.buffer_minutes,
      add_minutes (_buffer_t (add_minutes (_buffer_t (add_minutes (_buffer_t
        (add_minutes st.t inputs.first_look_minutes) inputs.buffer_minutes)
        inputs.couple_portraits_minutes) inputs.buffer_minutes)
        inputs.wedding_party_portraits_minutes) inputs.buffer_minutes)
        (_family_minutes inputs), "photo"⟩,
    by simp, rfl⟩⟩

/-- Without a first look, the post-ceremony branch emits the three portrait
blocks. -/
theorem post_ceremony_phase_has (inputs : EventInputs) (st : BuildState)
    (h : inputs.first_look = false) :
    (∃ b ∈ (post_ceremony_phase inputs st).blocks, b.name = "Couple portraits") ∧
    (∃ b ∈ (post_ceremony_phase inputs st).blocks, b.name = "Wedding party portraits") ∧
    (∃ b ∈ (post_ceremony_phase inputs st).blocks, b.name = "Family portraits") := by
  unfold post_ceremony_phase _add_block _add_buffer
  simp only [h, Bool.not_false, if_true]
  refine ⟨⟨⟨"Couple portraits",
      _buffer_t (add_minutes (_buffer_t (add_minutes st.t (_family_minutes inputs))
        (inputs.buffer_minutes + _extra_family_buffer inputs))
        inputs.wedding_party_portraits_minutes) inputs.buffer_minutes,
      add_minutes (_buffer_t (add_minutes (_buffer_t
        (add_minutes st.t (_family_minutes inputs))
        (inputs.buffer_minutes + _extra_family_buffer inputs))
        inputs.wedding_party_portraits_minutes) inputs.buffer_minutes)
        inputs.couple_portraits_minutes, "photo"⟩,
    by simp, rfl⟩,
    ⟨⟨"Wedding party portraits",
      _buffer_t (add_minutes st.t (_family_minutes inputs))
        (inputs.buffer_minutes + _extra_family_buffer inputs),
      add_minutes (_buffer_t (add_minutes st.t (_family_minutes inputs))
        (inputs.buffer_minutes + _extra_family_buffer inputs))
        inputs.wedding_party_portraits_minutes, "photo"⟩,
    by simp, rfl⟩,
    ⟨⟨"Family portraits", st.t, add_minutes st.t (_family_minutes inputs), "photo"⟩,
    by simp, rfl⟩⟩

/-- A first-look schedule whose 45-minute couple portraits overrun a
ceremony pinned to the very start of coverage. -/
def cexInputs : EventInputs := {
  coverage_start := 0
  coverage_end := 600
  ceremony_start := 0
  ceremony_minutes := 0
  first_look := true
  cocktail_hour_minutes := 0
  buffer_minutes := 0
  flatlay_details_minutes := 0
  getting_dressed_minutes := 0
  individual_portraits_minutes := 0
  couple_portraits_minutes := 45
  wedding_party_portraits_minutes := 0
  family_portraits_minutes := 0 }

/-- C1, counterexample to the claim as stated: with `first_look = true` the
engine still runs the portrait blocks from the current cursor, so when the
pre-ceremony schedule overruns `ceremony_start` (here: a ceremony at the
start of coverage), a portrait block ends after the ceremony block starts;
the engine only warns, it never reorders. -/
theorem first_look_ordering_counterexample :
    cexInputs.first_look = true ∧
    ¬(∀ b ∈ (build_timeline cexInputs).1,
        (b.name = "Couple portraits" ∨ b.name = "Wedding party portraits" ∨
         b.name = "Family portraits") →
        ∀ c ∈ (build_timeline cexInputs).1, c.name = "Ceremony" →
          b.«end» ≤ c.start) := by
  decide

/-- C1, amended: the ceremony block is always pinned to
`[ceremony_start, ceremony_start + ceremony_minutes]`, the three portrait
blocks and the ceremony block always appear, and the claimed ordering holds
with a qualification on the first-look side: with a first look the portrait
blocks end at or before `ceremony_start` provided the pre-ceremony schedule
does not overrun the ceremony start (otherwise the engine only emits the
pre-ceremony-overrun warning); without a first look the portrait blocks
unconditionally start at or after the ceremony end. -/
theorem first_look_ordering_amended (inputs : EventInputs)
    (hVD : ValidDurations inputs) :
    (∀ c ∈ (build_timeline inputs).1, c.name = "Ceremony" →
      c.start = inputs.ceremony_start ∧
      c.«end» = inputs.ceremony_start + inputs.ceremony_minutes) ∧
    ((∃ c ∈ (build_timeline inputs).1, c.name = "Ceremony") ∧
     (∃ b ∈ (build_timeline inputs).1, b.name = "Couple portraits") ∧
     (∃ b ∈ (build_timeline inputs).1, b.name = "Wedding party portraits") ∧
     (∃ b ∈ (build_timeline inputs).1, b.name = "Family portraits")) ∧
    (inputs.first_look = true →
      (pre_ceremony_phase inputs).t ≤ inputs.ceremony_start →
      ∀ b ∈ (build_timeline inputs).1,
        (b.name = "Couple portraits" ∨ b.name = "Wedding party portraits" ∨
         b.name = "Family portraits") →
        b.«end» ≤ inputs.ceremony_start) ∧
    (inputs.first_look = false →
      ∀ b ∈ (build_timeline inputs).1,
        (b.name = "Couple portraits" ∨ b.name = "Wedding party portraits" ∨
         b.name = "Family portraits") →
        inputs.ceremony_start + inputs.ceremony_minutes ≤ b.start) := by
  refine ⟨?_, ⟨?_, ?_⟩, ?_, ?_⟩
  · refine build_timeline_all inputs ?_ ?_
    · refine (post_ceremony_phase_appends inputs _).all ?_ ?_
      · refine (ceremony_phase_appends inputs _).1.all ?_ ?_
        · exact (pre_ceremony_phase_appends inputs).all (by simp)
            (fun b hp hname => absurd hname (ne_of_names (preP_names b hp) (by decide)))
        · rintro b (rfl | ⟨hn, -⟩ | ⟨hn, -⟩)
          · exact fun _ => ⟨rfl, rfl⟩
          · intro hname
            rw [hname] at hn
            exact absurd hn (by decide)
          · intro hname
            rw [hname] at hn
            exact absurd hn (by decide)
      · exact fun b hp hname =>
          absurd hname (ne_of_names (postP_names b hp) (by decide))
    · exact fun b h17 hname =>
        absurd hname (ne_of_names (or17_names b h17) (by decide))
  · exact ⟨_, build_timeline_mem inputs (entering_mem_of_post inputs
      ((post_ceremony_phase_appends inputs _).mem_mono (ceremony_phase_has inputs _))),
      rfl⟩
  · cases hfl : inputs.first_look with
    | true =>
      obtain ⟨⟨b1, hb1, hn1⟩, ⟨b2, hb2, hn2⟩, ⟨b3, hb3, hn3⟩⟩ :=
        first_look_steps_has inputs (prep_steps inputs
          (arrival_step inputs ⟨[], [], inputs.coverage_start⟩)) hfl
      exact ⟨⟨b1, build_timeline_mem inputs (entering_mem inputs
          (pre_mem_of_first_look inputs hb1)), hn1⟩,
        ⟨b2, build_timeline_mem inputs (entering_mem inputs
          (pre_mem_of_first_look inputs hb2)), hn2⟩,
        ⟨b3, build_timeline_mem inputs (entering_mem inputs
          (pre_mem_of_first_look inputs hb3)), hn3⟩⟩
    | false =>
      obtain ⟨⟨b1, hb1, hn1⟩, ⟨b2, hb2, hn2⟩, ⟨b3, hb3, hn3⟩⟩ :=
        post_ceremony_phase_has inputs
          (ceremony_phase inputs (pre_ceremony_phase inputs)) hfl
      exact ⟨⟨b1, build_timeline_mem inputs (entering_mem_of_post inputs hb1), hn1⟩,
        ⟨b2, build_timeline_mem inputs (entering_mem_of_post inputs hb2), hn2⟩,
        ⟨b3, build_timeline_mem inputs (entering_mem_of_post inputs hb3), hn3⟩⟩
  · intro hfl hcur
    refine build_timeline_all inputs ?_ ?_
    · rw [post_ceremony_phase_id inputs _ hfl]
      refine (ceremony_phase_appends inputs _).1.all ?_ ?_
      · exact fun b hb _ =>
          le_trans (pre_ceremony_blocks_end_le inputs hVD b hb) hcur
      · exact fun b hp hn => absurd hn
          (not_portrait_of_mem b (ceremonyP_names b hp)
            (by decide) (by decide) (by decide))
    · exact fun b h17 hn => absurd hn
        (not_portrait_of_mem b (or17_names b h17) (by decide) (by decide) (by decide))
  · intro hfl
    refine build_timeline_all inputs ?_ ?_
    · refine (post_ceremony_phase_appends inputs _).all ?_ ?_
      · refine (ceremony_phase_appends inputs _).1.all ?_ ?_
        · exact (pre_ceremony_phase_appends_nofl inputs hfl).all (by simp)
            (fun b hp hn => absurd hn (preNoFlP_not_portrait inputs b hp))
        · exact fun b hp hn => absurd hn
            (not_portrait_of_mem b (ceremonyP_names b hp)
              (by decide) (by decide) (by decide))
      · exact fun b hp _ =>
          le_trans (ceremony_phase_t_ge inputs _ hVD) (hp.2 hVD)
    · exact fun b h17 hn => absurd hn
        (not_portrait_of_mem b (or17_names b h17) (by decide) (by decide) (by decide))

/-- Witness for the amended C1 theorem at the sample schedule, whose
pre-ceremony cursor lands exactly on the ceremony start. -/
theorem first_look_ordering_amended_witness :
    sampleInputs.first_look = true ∧
    (pre_ceremony_phase sampleInputs).t ≤ sampleInputs.ceremony_start ∧
    ∀ b ∈ (build_timeline sampleInputs).1,
      (b.name = "Couple portraits" ∨ b.name = "Wedding party portraits" ∨
       b.name = "Family portraits") →
      b.«end» ≤ sampleInputs.ceremony_start :=
  ⟨rfl, by decide,
   (first_look_ordering_amended sampleInputs (by decide)).2.2.1 rfl (by decide)⟩

end PhotoOps
